import Mathlib

/-!
Shallow embedding of the graph-construction and buffer-aliasing pipeline of
`src/nntrainer/graph/network_graph.cpp` (class `NetworkGraph`), together with
theorems settling the frozen claims about it.

Modelling conventions:
* `std::shared_ptr<Layer>` is modelled as an index (`Nat`) into an explicit
  heap `store : List Layer` carried inside `NetworkGraph`; mutation through a
  shared pointer is an update of the heap cell, so aliasing between the
  user's `layers` vector and the graph's nodes is preserved.
* C++ functions returning an `int` status while mutating the graph become
  functions returning `Int × NetworkGraph`; functions that can throw return
  `Except String _` (the thrown message).
* The unbounded `do/while` loop of `ensureName` and the recursion of the
  topological sort are given explicit fuel that provably suffices on the
  states the claims quantify over; fuel exhaustion maps to the C++ behaviour
  that does not terminate normally (it is `none`/a stuck search).
-/

namespace NNTrainer

/-- Activation kinds (`ActivationType` of the C++ sources). -/
inductive ActivationType where
  | ACT_TANH
  | ACT_SIGMOID
  | ACT_RELU
  | ACT_SOFTMAX
  | ACT_NONE
  | ACT_UNKNOWN
deriving Repr, DecidableEq, Inhabited

/-- Loss kinds (`LossType` of the C++ sources). -/
inductive LossType where
  | LOSS_MSE
  | LOSS_ENTROPY
  | LOSS_ENTROPY_SIGMOID
  | LOSS_ENTROPY_SOFTMAX
  | LOSS_NONE
  | LOSS_UNKNOWN
deriving Repr, DecidableEq, Inhabited

/-- Modelled from the spec: the error-code constants come from the external
ml-api header, which is not under `src/`; only `ML_ERROR_NONE = 0` and the
distinctness of the codes matter to the graph code. -/
def ML_ERROR_NONE : Int := 0

/-- Modelled from the spec: invalid-parameter configuration error code. -/
def ML_ERROR_INVALID_PARAMETER : Int := -22

/-- Modelled from the spec: unsupported-operation error code
(`UnsupportedOperationError` of the spec). -/
def ML_ERROR_NOT_SUPPORTED : Int := -1073741822

/-- Modelled from the spec: the type tag strings (`XLayer::type`) live in the
layer headers, which are not under `src/`; `network_graph.cpp` itself writes
the literal "activation" at lines 253 and 290. -/
def activation_type_tag : String := "activation"

def batch_normalization_type_tag : String := "batch_normalization"

def addition_type_tag : String := "addition"

def concat_type_tag : String := "concat"

def flatten_type_tag : String := "flatten"

def input_type_tag : String := "input"

def loss_type_tag : String := "loss"

def output_type_tag : String := "output"

/-- `istrequal` of `parse_util` (external to `src/`, used throughout
`network_graph.cpp`): case-insensitive string equality (equal length and
equal characters after `tolower`, i.e. equal lowercased character lists). -/
def istrequal (a b : String) : Bool :=
  a.data.map Char.toLower == b.data.map Char.toLower

/-- One node operator (C++ `Layer`, accessed through `shared_ptr`).
Field defaults are modelled from the spec (§6): a freshly constructed
operator has an empty name, one input and one output slot, unset (zero
length) dimensions and no activation; `trainable` defaults to true.
`input_dim`/`output_dim` keep only each slot's `getDataLen()`, the one piece
of shape data `network_graph.cpp` reads. -/
structure Layer where
  name : String := ""
  ltype : String := ""
  activation : ActivationType := ActivationType.ACT_NONE
  loss : LossType := LossType.LOSS_UNKNOWN
  num_inputs : Nat := 1
  num_outputs : Nat := 1
  input_layers : List String := []
  output_layers : List String := []
  input_dim : List Nat := [0]
  output_dim : List Nat := [0]
  flatten : Bool := false
  trainable : Bool := true
deriving Repr, DecidableEq

instance : Inhabited Layer := ⟨{}⟩

/-- C++ `LayerNode`: a shared pointer to a layer plus the dense node index. -/
structure LayerNode where
  layerRef : Nat
  index : Nat
deriving Repr, DecidableEq

/-- Decidable equality for `Except` results (not derived by core). -/
instance instDecEqExcept {e a : Type} [DecidableEq e] [DecidableEq a] :
    DecidableEq (Except e a) := fun x y =>
  match x, y with
  | Except.ok u, Except.ok v =>
    if h : u = v then Decidable.isTrue (by rw [h])
    else Decidable.isFalse (by intro hh; cases hh; exact h rfl)
  | Except.error u, Except.error v =>
    if h : u = v then Decidable.isTrue (by rw [h])
    else Decidable.isFalse (by intro hh; cases hh; exact h rfl)
  | Except.ok _, Except.error _ => Decidable.isFalse (by intro hh; cases hh)
  | Except.error _, Except.ok _ => Decidable.isFalse (by intro hh; cases hh)

/-- C++ `NetworkGraph` state. `store` is the heap of `shared_ptr<Layer>`
objects; `adj.getD i []` is the C++ `adj[i]`, whose first element is node `i`
itself and whose tail holds the edges added by `addEdge`. -/
structure NetworkGraph where
  store : List Layer := []
  adj : List (List LayerNode) := []
  num_node : Nat := 0
  Sorted : List LayerNode := []
  layer_names : List String := []
  def_name_count : Nat := 0
  skip_non_trainable_layers : Nat := 0
deriving Repr, DecidableEq

/-- Dereference a layer pointer (out-of-range reads give the default layer;
such reads are C++ UB and unreachable in the states the theorems use). -/
def getLayer (g : NetworkGraph) (r : Nat) : Layer := g.store.getD r {}

/-- Write through a layer pointer. -/
def setLayer (g : NetworkGraph) (r : Nat) (l : Layer) : NetworkGraph :=
  { g with store := g.store.set r l }

/-- Modelled from the spec: `layer_names` is a `std::set<std::string>`
declared in `network_graph.h` (not under `src/`); the spec says name lookups
are case-insensitive (§3 Name Registry). Nothing in `network_graph.cpp` ever
inserts into the set, so its membership test decides nothing on reachable
states either way. -/
def nameUsed (names : List String) (s : String) : Bool :=
  names.any (fun t => istrequal t s)

/-- The `do { name = direct_name + to_string(def_name_count++); } while (in
use)` loop of `ensureName` (lines 170-173): the first counter value `k ≥
start` whose synthesized name is unused. The fuel `names.length + 1` always
suffices: the candidates are pairwise distinct and the set is smaller. -/
def findFree (names : List String) (direct : String) : Nat → Nat → Nat
  | start, 0 => start
  | start, fuel + 1 =>
    if nameUsed names (direct ++ toString start) then
      findFree names direct (start + 1) fuel
    else start

/-- `NetworkGraph::ensureName` (lines 147-176). Note: it consults
`layer_names` but never inserts into it. -/
def ensureName (g : NetworkGraph) (r : Nat) (pre : String) (force_rename : Bool) :
    NetworkGraph :=
  let layer := getLayer g r
  let orig_name := layer.name
  let orig_name_empty := orig_name.isEmpty
  if ¬orig_name_empty ∧ ¬force_rename ∧ nameUsed g.layer_names orig_name = false then
    g
  else if ¬orig_name_empty ∧ nameUsed g.layer_names (pre ++ orig_name) = false then
    setLayer g r { layer with name := pre ++ orig_name }
  else
    let base := if orig_name_empty then layer.ltype else orig_name
    let direct := pre ++ base
    let k := findFree g.layer_names direct g.def_name_count (g.layer_names.length + 1)
    let g1 := setLayer g r { layer with name := direct ++ toString k }
    { g1 with def_name_count := k + 1 }

/-- `NetworkGraph::addLayerNode` (lines 60-72). -/
def addLayerNode (g : NetworkGraph) (r : Nat) : NetworkGraph :=
  let g1 := ensureName g r "" false
  { g1 with
    adj := g1.adj ++ [[⟨r, g1.num_node⟩]],
    num_node := g1.num_node + 1 }

/-- Modelled from the spec: `nntrainer::createLayer` (layer factory, not
under `src/`) allocates a fresh operator of the given type tag with the
default fields of §6. Returns the new heap reference. -/
def createLayer (g : NetworkGraph) (t : String) : Nat × NetworkGraph :=
  (g.store.length, { g with store := g.store ++ [{ ltype := t }] })

/-- Replace the first entry of `ils` that case-insensitively equals `cname`
(the inner loops of `updateNameInLayers`); `none` when nothing matches. -/
def updateNameList (ils : List String) (cname nm : String) : Option (List String) :=
  match ils with
  | [] => none
  | x :: rest =>
    if istrequal x cname then some (nm :: rest)
    else (updateNameList rest cname nm).map (fun t => x :: t)

/-- `NetworkGraph::updateNameInLayers` (lines 40-51): rewrite only the FIRST
input reference to `cname` found over the layer list, then return. -/
def updateNameInLayers (g : NetworkGraph) (refs : List Nat) (cname nm : String) :
    NetworkGraph :=
  match refs with
  | [] => g
  | r :: rest =>
    let l := getLayer g r
    match updateNameList l.input_layers cname nm with
    | some ils => setLayer g r { l with input_layers := ils }
    | none => updateNameInLayers g rest cname nm

/-- `std::vector::resize` on a dimension vector: keep a prefix, pad with
default (zero-length) dimensions. -/
def resizeD (l : List Nat) (n : Nat) : List Nat :=
  l.take n ++ List.replicate (n - l.length) 0

/-- `NetworkGraph::realizeMultiInputType` (lines 178-197). -/
def realizeMultiInputType (g : NetworkGraph) (curRef : Nat) : Int × NetworkGraph :=
  let cur := getLayer g curRef
  if cur.num_inputs = 1 then (ML_ERROR_NONE, g)
  else
    let p := createLayer g addition_type_tag
    let newRef := p.1
    let g2 := ensureName p.2 newRef cur.name false
    let nl := getLayer g2 newRef
    let nl1 := { nl with
      num_inputs := cur.num_inputs,
      input_dim := resizeD nl.input_dim cur.num_inputs,
      input_layers := cur.input_layers }
    let g3 := setLayer g2 newRef nl1
    let cur1 := getLayer g3 curRef
    let g4 := setLayer g3 curRef { cur1 with num_inputs := 1, input_layers := [nl1.name] }
    (ML_ERROR_NONE, addLayerNode g4 newRef)

/-- `NetworkGraph::realizeFlattenType` (lines 199-224). -/
def realizeFlattenType (g : NetworkGraph) (curRef : Nat) : Int × NetworkGraph :=
  let cur := getLayer g curRef
  if g.num_node = 0 then (ML_ERROR_INVALID_PARAMETER, g)
  else if cur.ltype = flatten_type_tag then (ML_ERROR_INVALID_PARAMETER, g)
  else
    let p := createLayer g flatten_type_tag
    let newRef := p.1
    let g2 := ensureName p.2 newRef cur.name false
    let nl := getLayer g2 newRef
    let g3 := setLayer g2 newRef { nl with num_inputs := 1, input_layers := [cur.name] }
    (ML_ERROR_NONE, addLayerNode g3 newRef)

/-- `NetworkGraph::realizeActivationType` (lines 226-279). -/
def realizeActivationType (g : NetworkGraph) (curRef : Nat) (refs : List Nat) :
    Int × NetworkGraph :=
  let cur := getLayer g curRef
  let act := cur.activation
  if act = ActivationType.ACT_NONE then (ML_ERROR_NONE, g)
  else if g.num_node = 0 then (ML_ERROR_INVALID_PARAMETER, g)
  else if cur.ltype = activation_type_tag then (ML_ERROR_INVALID_PARAMETER, g)
  else if act = ActivationType.ACT_UNKNOWN then (ML_ERROR_INVALID_PARAMETER, g)
  else
    let p := createLayer g "activation"
    let newRef := p.1
    let g2 := ensureName p.2 newRef cur.name false
    let nl := getLayer g2 newRef
    let nl1 := { nl with
      activation := act,
      num_inputs := 1,
      input_layers := [cur.name] }
    let g3 := setLayer g2 newRef nl1
    if cur.num_outputs ≠ 1 then (ML_ERROR_INVALID_PARAMETER, g3)
    else
      let nl2 := { nl1 with
        num_outputs := cur.num_outputs,
        output_dim := resizeD nl1.output_dim cur.num_outputs,
        output_layers := cur.output_layers.take cur.num_outputs }
      let g4 := setLayer g3 newRef nl2
      let cur1 := getLayer g4 curRef
      let g5 := setLayer g4 curRef
        { cur1 with num_outputs := 1, output_layers := [nl2.name] }
      let g6 := addLayerNode g5 newRef
      (ML_ERROR_NONE, updateNameInLayers g6 refs (getLayer g6 curRef).name nl2.name)

/-- `NetworkGraph::realizeMultiOutputType` (lines 377-405). The C++ loop
pushes each of `current`'s outputs onto the new duplicator node and calls
`updateNameInLayers` once per iteration. -/
def realizeMultiOutputType (g : NetworkGraph) (curRef : Nat) (refs : List Nat) :
    Int × NetworkGraph :=
  let cur := getLayer g curRef
  if cur.num_outputs = 1 then (ML_ERROR_NONE, g)
  else
    let p := createLayer g output_type_tag
    let newRef := p.1
    let g2 := ensureName p.2 newRef cur.name false
    let nl := getLayer g2 newRef
    let nl1 := { nl with
      num_inputs := 1,
      input_layers := [cur.name],
      num_outputs := cur.num_outputs,
      output_layers := cur.output_layers }
    let g3 := cur.output_layers.foldl
      (fun acc _ => updateNameInLayers acc refs cur.name nl1.name) g2
    let g4 := setLayer g3 newRef nl1
    let cur1 := getLayer g4 curRef
    let g5 := setLayer g4 curRef
      { cur1 with num_outputs := 1, output_layers := [nl1.name] }
    (ML_ERROR_NONE, addLayerNode g5 newRef)

/-- One `idx` iteration of `NetworkGraph::setOutputLayers` (lines 345-363):
scan every other layer's input list for references to `layers[idx]`'s name
and append each referencing layer's name to `layers[idx]`'s outputs (the
inner `k` duplicate-check loop of the C++ has an empty body, so the push is
unconditional); then re-sync `num_outputs`/`output_dim`. -/
def setOutputLayersStep (g : NetworkGraph) (refs : List Nat) (idxRef : Nat) :
    NetworkGraph :=
  let li := getLayer g idxRef
  let pushes := refs.flatMap (fun r =>
    let l := getLayer g r
    if istrequal l.name li.name then []
    else (l.input_layers.filter (fun inp => istrequal inp li.name)).map
      (fun _ => l.name))
  let outs := li.output_layers ++ pushes
  let li1 :=
    if li.num_outputs ≠ outs.length then
      { li with
        output_layers := outs,
        num_outputs := outs.length,
        output_dim := resizeD li.output_dim outs.length }
    else { li with output_layers := outs }
  setLayer g idxRef li1

/-- `NetworkGraph::setOutputLayers` (lines 342-375). Throws
"There is un-connected node" when a layer ends up with no outputs. -/
def setOutputLayers (g : NetworkGraph) (refs : List Nat) :
    Except String NetworkGraph :=
  let g1 := refs.foldl (fun acc r => setOutputLayersStep acc refs r) g
  let g2 :=
    match refs.getLast? with
    | none => g1
    | some lastRef =>
      let lb := getLayer g1 lastRef
      if lb.num_outputs = 0 then
        setLayer g1 lastRef
          { lb with
            num_outputs := 1,
            output_dim := resizeD lb.output_dim 1,
            output_layers := lb.output_layers ++ ["__exit__"] }
      else g1
  if refs.any (fun r => (getLayer g2 r).output_layers.length = 0) then
    Except.error "There is un-connected node"
  else Except.ok g2

/-- The index-search loop of `NetworkGraph::getLayerNode(unsigned int)`
(lines 88-99) over a list of candidate slots: the first `adj[i]` whose head
node carries index `ith`. -/
def findNodeFrom (adjL : List (List LayerNode)) (ith : Nat) : List Nat → Option LayerNode
  | [] => none
  | i :: rest =>
    match (adjL.getD i []).head? with
    | some nd => if nd.index = ith then some nd else findNodeFrom adjL ith rest
    | none => findNodeFrom adjL ith rest

/-- `NetworkGraph::getLayerNode(unsigned int ith)` (lines 88-99); `none`
models the thrown `std::invalid_argument("Cannot find Layer")`. -/
def getLayerNodeIdx? (adjL : List (List LayerNode)) (numNode ith : Nat) :
    Option LayerNode :=
  findNodeFrom adjL ith (List.range numNode)

/-- `NetworkGraph::getLayerNode(const std::string &)` (lines 480-491):
first head node whose layer name case-insensitively equals `nm`. -/
def getLayerNodeByName (g : NetworkGraph) (nm : String) : Option LayerNode :=
  g.adj.findSome? (fun l =>
    match l.head? with
    | some nd => if istrequal (getLayer g nd.layerRef).name nm then some nd else none
    | none => none)

/-- `LossLayer::setLoss`. Modelled from the spec: the loss layer lives
outside `src/`; per the spec an unknown loss kind is a configuration error
and any concrete kind is recorded on the node. -/
def setLoss (l : Layer) (t : LossType) : Int × Layer :=
  if t = LossType.LOSS_UNKNOWN then (ML_ERROR_INVALID_PARAMETER, l)
  else (ML_ERROR_NONE, { l with loss := t })

/-- `NetworkGraph::addLossLayer` (lines 281-340). For `LOSS_ENTROPY` the
last node is required to be an activation node; it is popped from `adj`
BEFORE its activation kind is inspected, so the `NOT_SUPPORTED` return for a
non-sigmoid/softmax activation leaves the graph already shrunk. -/
def addLossLayer (g : NetworkGraph) (lt : LossType) :
    Except String (Int × NetworkGraph) :=
  if g.num_node = 0 then Except.ok (ML_ERROR_INVALID_PARAMETER, g)
  else
    let step2 : LossType → NetworkGraph → Except String (Int × NetworkGraph) :=
      fun updated g2 =>
        if g2.num_node = 0 then Except.error "Cannot find Layer"
        else
          match getLayerNodeIdx? g2.adj g2.num_node (g2.num_node - 1) with
          | none => Except.error "Cannot find Layer"
          | some lastNode =>
            let input_str := (getLayer g2 lastNode.layerRef).name
            let p := createLayer g2 loss_type_tag
            let lossRef := p.1
            let g4 := ensureName p.2 lossRef "" false
            let lastL := getLayer g4 lastNode.layerRef
            let g5 := setLayer g4 lastNode.layerRef
              { lastL with
                num_outputs := 1,
                output_layers := [(getLayer g4 lossRef).name] }
            let lossL := getLayer g5 lossRef
            let lossL1 := { lossL with num_inputs := 1, input_layers := [input_str] }
            let lossL2 :=
              if lossL1.output_layers.length = 0 then
                { lossL1 with
                  num_outputs := 1,
                  output_dim := resizeD lossL1.output_dim 1,
                  output_layers := lossL1.output_layers ++ ["__exit__"] }
              else lossL1
            let q := setLoss lossL2 updated
            let g6 := setLayer g5 lossRef q.2
            if q.1 ≠ ML_ERROR_NONE then Except.ok (q.1, g6)
            else Except.ok (ML_ERROR_NONE, addLayerNode g6 lossRef)
    if lt = LossType.LOSS_ENTROPY then
      match getLayerNodeIdx? g.adj g.num_node (g.num_node - 1) with
      | none => Except.error "Cannot find Layer"
      | some actNode =>
        if (getLayer g actNode.layerRef).ltype ≠ "activation" then
          Except.ok (ML_ERROR_NOT_SUPPORTED, g)
        else
          let g1 := { g with adj := g.adj.dropLast, num_node := g.num_node - 1 }
          match (getLayer g1 actNode.layerRef).activation with
          | ActivationType.ACT_SIGMOID => step2 LossType.LOSS_ENTROPY_SIGMOID g1
          | ActivationType.ACT_SOFTMAX => step2 LossType.LOSS_ENTROPY_SOFTMAX g1
          | _ => Except.ok (ML_ERROR_NOT_SUPPORTED, g1)
    else step2 lt g

/-- The body of the per-layer loop of `NetworkGraph::setGraphNode`
(lines 414-451). -/
def setGraphNodeStep (g : NetworkGraph) (refs : List Nat) (r : Nat) :
    Except String (Int × NetworkGraph) :=
  let l := getLayer g r
  let bind : Except String (Int × NetworkGraph) :=
    if l.input_layers.length < 1 then
      if l.input_dim.any (fun d => d = 0) then
        Except.error "Input Dimension must be set"
      else
        Except.ok (ML_ERROR_NONE,
          setLayer g r { l with num_inputs := 1, input_layers := ["__data__"] })
    else Except.ok (ML_ERROR_NONE, g)
  match bind with
  | Except.error e => Except.error e
  | Except.ok (_, ga) =>
    let la := getLayer ga r
    let s1 : Int × NetworkGraph :=
      if la.ltype ≠ addition_type_tag ∧ la.ltype ≠ concat_type_tag then
        realizeMultiInputType ga r
      else (ML_ERROR_NONE, ga)
    if s1.1 ≠ ML_ERROR_NONE then Except.ok s1
    else
      let gb := addLayerNode s1.2 r
      let lb := getLayer gb r
      let s2 : Int × NetworkGraph :=
        if lb.ltype ≠ activation_type_tag then realizeActivationType gb r refs
        else (ML_ERROR_NONE, gb)
      if s2.1 ≠ ML_ERROR_NONE then Except.ok s2
      else
        let lc := getLayer s2.2 r
        let s3 : Int × NetworkGraph :=
          if lc.ltype ≠ output_type_tag then realizeMultiOutputType s2.2 r refs
          else (ML_ERROR_NONE, s2.2)
        if s3.1 ≠ ML_ERROR_NONE then Except.ok s3
        else
          let ld := getLayer s3.2 r
          let s4 : Int × NetworkGraph :=
            if ld.flatten then realizeFlattenType s3.2 r
            else (ML_ERROR_NONE, s3.2)
          Except.ok s4

/-- The per-layer loop of `setGraphNode`, with the `NN_RETURN_STATUS()`
early returns. -/
def setGraphNodeLoop (g : NetworkGraph) (refs : List Nat) :
    List Nat → Except String (Int × NetworkGraph)
  | [] => Except.ok (ML_ERROR_NONE, g)
  | r :: rest =>
    match setGraphNodeStep g refs r with
    | Except.error e => Except.error e
    | Except.ok (st, g1) =>
      if st ≠ ML_ERROR_NONE then Except.ok (st, g1)
      else setGraphNodeLoop g1 refs rest

/-- `NetworkGraph::setGraphNode` (lines 407-460). -/
def setGraphNode (g : NetworkGraph) (refs : List Nat) (lt : LossType) :
    Except String (Int × NetworkGraph) :=
  match setOutputLayers g refs with
  | Except.error e => Except.error e
  | Except.ok g1 =>
    match setGraphNodeLoop g1 refs refs with
    | Except.error e => Except.error e
    | Except.ok (st, g2) =>
      if st ≠ ML_ERROR_NONE then Except.ok (st, g2)
      else
        match refs.getLast? with
        | none => Except.ok (ML_ERROR_NONE, g2)
        | some lastRef =>
          if (getLayer g2 lastRef).ltype ≠ loss_type_tag ∧ lt ≠ LossType.LOSS_NONE then
            addLossLayer g2 lt
          else Except.ok (ML_ERROR_NONE, g2)

/-- `NetworkGraph::addEdge` (lines 53-58) inside the `setEdge` loop:
append the consumer node to the producer's adjacency list. -/
def addEdge (g : NetworkGraph) (ith : Nat) (node : LayerNode) :
    Except String NetworkGraph :=
  if g.num_node ≤ ith then Except.error "Exceed total number of layer"
  else Except.ok { g with adj := g.adj.set ith (g.adj.getD ith [] ++ [node]) }

/-- The inner input-name loop of `NetworkGraph::setEdge` (lines 503-509). -/
def setEdgeInputs (g : NetworkGraph) (node : LayerNode) :
    List String → Except String NetworkGraph
  | [] => Except.ok g
  | inp :: rest =>
    if istrequal inp "__data__" then setEdgeInputs g node rest
    else
      match getLayerNodeByName g inp with
      | none => Except.error "Cannot find Layer"
      | some producer =>
        match addEdge g producer.index node with
        | Except.error e => Except.error e
        | Except.ok g1 => setEdgeInputs g1 node rest

/-- The outer loop of `NetworkGraph::setEdge` (lines 493-513), iterating the
adjacency slots by position. -/
def setEdgeLoop (g : NetworkGraph) : List Nat → Except String NetworkGraph
  | [] => Except.ok g
  | i :: rest =>
    match (g.adj.getD i []).head? with
    | none => setEdgeLoop g rest
    | some nd =>
      if (getLayer g nd.layerRef).input_dim.getD 0 0 ≠ 0 then setEdgeLoop g rest
      else
        match setEdgeInputs g nd (getLayer g nd.layerRef).input_layers with
        | Except.error e => Except.error e
        | Except.ok g1 => setEdgeLoop g1 rest

/-- `NetworkGraph::setEdge` (lines 493-513). -/
def setEdge (g : NetworkGraph) : Except String NetworkGraph :=
  setEdgeLoop g (List.range g.adj.length)

/-- `visited[i]` of the sort (out-of-range reads give `false`). -/
def visGet (visited : List Bool) (i : Nat) : Bool := visited.getD i false

/-- The successor loop of `topologicalSortUtil` (lines 79-83),
parameterized by the recursive visit (`topologicalSortUtil` at the
remaining fuel): iterate the adjacency list, recursing into each
not-yet-visited node, threading `visited` and the completion stack. -/
def sortVisitSuccs
    (visit : Nat → List Bool → List LayerNode → Option (List Bool × List LayerNode)) :
    List LayerNode → List Bool → List LayerNode → Option (List Bool × List LayerNode)
  | [], visited, stack => some (visited, stack)
  | nd :: rest, visited, stack =>
    if visGet visited nd.index then sortVisitSuccs visit rest visited stack
    else
      match visit nd.index visited stack with
      | none => none
      | some (v2, s2) => sortVisitSuccs visit rest v2 s2

/-- `NetworkGraph::topologicalSortUtil` (lines 74-86). Fuel bounds the
recursion depth; it is consumed once per (always previously unvisited) node
entry, so `num_node` fuel suffices on well-formed graphs, and exhaustion
(`none`) models the unbounded recursion a malformed graph would cause. -/
def topologicalSortUtil (adjL : List (List LayerNode)) (numNode : Nat) :
    Nat → Nat → List Bool → List LayerNode → Option (List Bool × List LayerNode)
  | 0, _, _, _ => none
  | fuel + 1, ith, visited, stack =>
    match sortVisitSuccs (fun i v s => topologicalSortUtil adjL numNode fuel i v s)
        (adjL.getD ith []) (visited.set ith true) stack with
    | none => none
    | some (v2, s2) =>
      match getLayerNodeIdx? adjL numNode ith with
      | some nd => some (v2, nd :: s2)
      | none => none

/-- The `for (i = 0; i < num_node; ++i) if (!visited[i])` driver loop of
`NetworkGraph::topologicalSort` (lines 132-136). -/
def sortLoop (adjL : List (List LayerNode)) (numNode : Nat) :
    List Nat → List Bool → List LayerNode → Option (List Bool × List LayerNode)
  | [], visited, stack => some (visited, stack)
  | i :: rest, visited, stack =>
    if visGet visited i then sortLoop adjL numNode rest visited stack
    else
      match topologicalSortUtil adjL numNode numNode i visited stack with
      | none => none
      | some (v2, s2) => sortLoop adjL numNode rest v2 s2

/-- The scan of `NetworkGraph::countNonTrainableLayersAtBegin`
(lines 112-120): position of the first trainable sorted node, if any. -/
def firstTrainableIdx (g : NetworkGraph) : List LayerNode → Nat → Option Nat
  | [], _ => none
  | nd :: rest, pos =>
    if (getLayer g nd.layerRef).trainable then some pos
    else firstTrainableIdx g rest (pos + 1)

/-- `NetworkGraph::countNonTrainableLayersAtBegin` (lines 112-120): the
field is written ONLY when some sorted node is trainable; otherwise the
graph is left untouched. -/
def countNonTrainableLayersAtBegin (g : NetworkGraph) : NetworkGraph :=
  match firstTrainableIdx g g.Sorted 0 with
  | some k => { g with skip_non_trainable_layers := k }
  | none => g

/-- `NetworkGraph::topologicalSort` (lines 122-145): DFS from every
unvisited node, drain the completion stack top-first into `Sorted`, then
count the leading non-trainable nodes. -/
def topologicalSort (g : NetworkGraph) : Option NetworkGraph :=
  match sortLoop g.adj g.num_node (List.range g.num_node)
      (List.replicate g.num_node false) [] with
  | none => none
  | some (_, stack) =>
    some (countNonTrainableLayersAtBegin { g with Sorted := g.Sorted ++ stack })

/-- `in_place_layers` (lines 37-38): the aliasing allow-list, in pass order. -/
def in_place_layers : List String := [activation_type_tag, batch_normalization_type_tag]

/-- `NetworkGraph::inPlaceOptimize(layer_type, manager)` (lines 543-630)
restricted to its aliasing DECISIONS: walking the tail of `Sorted`, it
returns the list of `(node name, predecessor name, predecessor output slot)`
aliasings performed, in order; `Except.error` models the thrown
`std::runtime_error`s. The tensor-handle rewiring itself acts on external
`Var_Grad` storage (outside `src/`) and affects no later decision, every
decision being computed from node names/types/connectivity only. -/
def inPlaceOptimizeType (g : NetworkGraph) (t : String) :
    List LayerNode → Except String (List (String × String × Nat))
  | [] => Except.ok []
  | nd :: rest =>
    let l := getLayer g nd.layerRef
    if l.ltype = t ∧ l.activation ≠ ActivationType.ACT_SOFTMAX then
      if l.input_layers.length ≠ 1 then
        Except.error "Internal error in the formed graph"
      else
        match getLayerNodeByName g (l.input_layers.headD "") with
        | none => Except.error "Cannot find Layer"
        | some pnd =>
          let p := getLayer g pnd.layerRef
          let loc := p.output_layers.indexOf l.name
          if loc = p.output_layers.length then
            Except.error "Internal error in the formed graph."
          else if p.ltype = input_type_tag then inPlaceOptimizeType g t rest
          else if in_place_layers.contains p.ltype then inPlaceOptimizeType g t rest
          else if l.ltype = batch_normalization_type_tag then
            match inPlaceOptimizeType g t rest with
            | Except.error e => Except.error e
            | Except.ok evs => Except.ok ((l.name, p.name, loc) :: evs)
          else if l.ltype = activation_type_tag then
            match inPlaceOptimizeType g t rest with
            | Except.error e => Except.error e
            | Except.ok evs => Except.ok ((l.name, p.name, loc) :: evs)
          else Except.error (l.ltype ++ " layer is not supported for in-place optimization")
    else inPlaceOptimizeType g t rest

/-- The driver `NetworkGraph::inPlaceOptimize(manager)` (lines 632-635):
one pass per allow-listed type, in allow-list order. -/
def inPlaceOptimizeAll (g : NetworkGraph) : List String →
    Except String (List (String × String × Nat))
  | [] => Except.ok []
  | t :: ts =>
    match inPlaceOptimizeType g t g.Sorted with
    | Except.error e => Except.error e
    | Except.ok evs =>
      match inPlaceOptimizeAll g ts with
      | Except.error e => Except.error e
      | Except.ok evs2 => Except.ok (evs ++ evs2)

/-- `NetworkGraph::inPlaceOptimize(Manager&)` (lines 632-635). -/
def inPlaceOptimize (g : NetworkGraph) :
    Except String (List (String × String × Nat)) :=
  inPlaceOptimizeAll g in_place_layers

/-- Modelled from the spec: the driver sequencing the pipeline lives in
`neuralnet.cpp`, outside `src/`; per §2 a build is realization (`
setGraphNode`) → edge resolution (`setEdge`) → topological sort, aborting on
the first error. -/
def buildPipeline (g : NetworkGraph) (refs : List Nat) (lt : LossType) :
    Except String NetworkGraph :=
  match setGraphNode g refs lt with
  | Except.error e => Except.error e
  | Except.ok (st, g1) =>
    if st ≠ ML_ERROR_NONE then Except.error "build failed with error status"
    else
      match setEdge g1 with
      | Except.error e => Except.error e
      | Except.ok g2 =>
        match topologicalSort g2 with
        | none => Except.error "topological sort did not terminate"
        | some g3 => Except.ok g3

/-- Names of the sorted nodes, in execution order. -/
def sortedNames (g : NetworkGraph) : List String :=
  g.Sorted.map (fun nd => (getLayer g nd.layerRef).name)

/-- A build's observable outcome for the determinism claim: the sorted name
sequence together with the aliasing decisions. -/
def buildOutcome (g : NetworkGraph) (refs : List Nat) (lt : LossType) :
    Option (List String × List (String × String × Nat)) :=
  match buildPipeline g refs lt with
  | Except.error _ => none
  | Except.ok g1 =>
    match inPlaceOptimize g1 with
    | Except.error _ => none
    | Except.ok evs => some (sortedNames g1, evs)

/-! Generic list lemmas used throughout the development. -/

theorem getD_set_self {α : Type} (l : List α) (i : Nat) (a d : α) (h : i < l.length) :
    (l.set i a).getD i d = a := by
  simp [List.getD_eq_getElem?_getD, List.getElem?_set_self, h]

theorem getD_set_ne {α : Type} (l : List α) (i j : Nat) (a d : α) (h : i ≠ j) :
    (l.set i a).getD j d = l.getD j d := by
  simp [List.getD_eq_getElem?_getD, List.getElem?_set_ne h]

theorem getD_append_self {α : Type} (l : List α) (a d : α) :
    (l ++ [a]).getD l.length d = a := by
  simp [List.getD_eq_getElem?_getD]

theorem getD_append_left {α : Type} (l l2 : List α) (i : Nat) (d : α) (h : i < l.length) :
    (l ++ l2).getD i d = l.getD i d := by
  simp [List.getD_eq_getElem?_getD, List.getElem?_append, h]

theorem getD_of_length_le {α : Type} (l : List α) (i : Nat) (d : α) (h : l.length ≤ i) :
    l.getD i d = d :=
  List.getD_eq_default l d h

/-! State-preservation lemmas: which graph fields each heap operation can
touch. -/

@[simp] theorem setLayer_adj (g : NetworkGraph) (r : Nat) (l : Layer) :
    (setLayer g r l).adj = g.adj := rfl

@[simp] theorem setLayer_num_node (g : NetworkGraph) (r : Nat) (l : Layer) :
    (setLayer g r l).num_node = g.num_node := rfl

@[simp] theorem setLayer_Sorted (g : NetworkGraph) (r : Nat) (l : Layer) :
    (setLayer g r l).Sorted = g.Sorted := rfl

@[simp] theorem setLayer_layer_names (g : NetworkGraph) (r : Nat) (l : Layer) :
    (setLayer g r l).layer_names = g.layer_names := rfl

theorem ensureName_adj (g : NetworkGraph) (r : Nat) (pre : String) (f : Bool) :
    (ensureName g r pre f).adj = g.adj := by
  unfold ensureName
  dsimp only
  split
  · rfl
  · split <;> rfl

theorem ensureName_num_node (g : NetworkGraph) (r : Nat) (pre : String) (f : Bool) :
    (ensureName g r pre f).num_node = g.num_node := by
  unfold ensureName
  dsimp only
  split
  · rfl
  · split <;> rfl

theorem ensureName_Sorted (g : NetworkGraph) (r : Nat) (pre : String) (f : Bool) :
    (ensureName g r pre f).Sorted = g.Sorted := by
  unfold ensureName
  dsimp only
  split
  · rfl
  · split <;> rfl

theorem ensureName_layer_names (g : NetworkGraph) (r : Nat) (pre : String) (f : Bool) :
    (ensureName g r pre f).layer_names = g.layer_names := by
  unfold ensureName
  dsimp only
  split
  · rfl
  · split <;> rfl

@[simp] theorem createLayer_adj (g : NetworkGraph) (t : String) :
    (createLayer g t).2.adj = g.adj := rfl

@[simp] theorem createLayer_num_node (g : NetworkGraph) (t : String) :
    (createLayer g t).2.num_node = g.num_node := rfl

/-! ### Claim C10 — `countNonTrainableLayersAtBegin` frame behaviour -/

theorem firstTrainableIdx_eq_none (g : NetworkGraph) :
    ∀ (l : List LayerNode) (pos : Nat),
      (∀ nd ∈ l, (getLayer g nd.layerRef).trainable = false) →
      firstTrainableIdx g l pos = none := by
  intro l
  induction l with
  | nil => intro pos _; rfl
  | cons nd rest ih =>
    intro pos h
    have hnd := h nd (List.mem_cons_self nd rest)
    simp only [firstTrainableIdx, hnd]
    exact ih (pos + 1) (fun x hx => h x (List.mem_cons_of_mem nd hx))

theorem firstTrainableIdx_eq_some (g : NetworkGraph) :
    ∀ (l : List LayerNode) (pos k : Nat) (hk : k < l.length),
      (getLayer g (l.get ⟨k, hk⟩).layerRef).trainable = true →
      (∀ (j : Nat) (hj : j < l.length), j < k →
        (getLayer g (l.get ⟨j, hj⟩).layerRef).trainable = false) →
      firstTrainableIdx g l pos = some (pos + k) := by
  intro l
  induction l with
  | nil => intro pos k hk; exact absurd hk (by simp)
  | cons nd rest ih =>
    intro pos k hk htr hbefore
    match k with
    | 0 =>
      simp only [List.get] at htr
      simp [firstTrainableIdx, htr]
    | Nat.succ k1 =>
      have h0 : (getLayer g nd.layerRef).trainable = false := by
        have := hbefore 0 (by simp) (Nat.succ_pos k1)
        simpa using this
      simp only [firstTrainableIdx, h0, Bool.false_eq_true, if_false]
      have hk1 : k1 < rest.length := by
        simpa [Nat.succ_lt_succ_iff] using hk
      have htr1 : (getLayer g (rest.get ⟨k1, hk1⟩).layerRef).trainable = true := by
        simpa using htr
      have hb1 : ∀ (j : Nat) (hj : j < rest.length), j < k1 →
          (getLayer g (rest.get ⟨j, hj⟩).layerRef).trainable = false := by
        intro j hj hjk
        have := hbefore (j + 1) (by simpa [Nat.succ_lt_succ_iff] using hj)
          (Nat.succ_lt_succ hjk)
        simpa using this
      have := ih (pos + 1) k1 hk1 htr1 hb1
      rw [this]
      congr 1
      omega

/-- Claim C10: `countNonTrainableLayersAtBegin` writes the non-trainable
prefix count only when some sorted node is trainable, and then writes the
index of the first trainable node; when every sorted node is non-trainable
the graph (in particular the prior count) is left unchanged. -/
theorem claim_C10_count_non_trainable (g : NetworkGraph) :
    ((∀ nd ∈ g.Sorted, (getLayer g nd.layerRef).trainable = false) →
      countNonTrainableLayersAtBegin g = g) ∧
    (∀ (k : Nat) (hk : k < g.Sorted.length),
      (getLayer g (g.Sorted.get ⟨k, hk⟩).layerRef).trainable = true →
      (∀ (j : Nat) (hj : j < g.Sorted.length), j < k →
        (getLayer g (g.Sorted.get ⟨j, hj⟩).layerRef).trainable = false) →
      countNonTrainableLayersAtBegin g = { g with skip_non_trainable_layers := k }) := by
  constructor
  · intro h
    unfold countNonTrainableLayersAtBegin
    rw [firstTrainableIdx_eq_none g g.Sorted 0 h]
  · intro k hk htr hb
    unfold countNonTrainableLayersAtBegin
    rw [firstTrainableIdx_eq_some g g.Sorted 0 k hk htr hb]
    simp only [Nat.zero_add]

/-- Concrete graph for the C10 witness: a non-trainable node followed by a
trainable one. -/
def c10Graph : NetworkGraph :=
  { store := [{ name := "frozen", trainable := false }, { name := "train", trainable := true }],
    Sorted := [⟨0, 0⟩, ⟨1, 1⟩],
    skip_non_trainable_layers := 77 }

theorem claim_C10_witness :
    (getLayer c10Graph ((c10Graph.Sorted.get ⟨1, by decide⟩).layerRef)).trainable = true ∧
    countNonTrainableLayersAtBegin c10Graph =
      { c10Graph with skip_non_trainable_layers := 1 } := by
  refine ⟨by decide, ?_⟩
  exact (claim_C10_count_non_trainable c10Graph).2 1 (by decide) (by decide)
    (by
      intro j hj hjk
      have hj0 : j = 0 := by omega
      subst hj0
      rfl)

/-! ### Claim C9 — activation realization requires one declared output -/

/-- Claim C9: when the triggering node has a known, non-trivial activation,
is not itself an activation node, the graph is non-empty, and the node's
declared output count is not 1, `realizeActivationType` returns
`ML_ERROR_INVALID_PARAMETER` and adds no node to the graph (`adj` and
`num_node` are unchanged). -/
theorem claim_C9_activation_requires_single_output (g : NetworkGraph) (r : Nat)
    (refs : List Nat)
    (hact : (getLayer g r).activation ≠ ActivationType.ACT_NONE)
    (hunk : (getLayer g r).activation ≠ ActivationType.ACT_UNKNOWN)
    (hty : (getLayer g r).ltype ≠ activation_type_tag)
    (hn : g.num_node ≠ 0)
    (hout : (getLayer g r).num_outputs ≠ 1) :
    (realizeActivationType g r refs).1 = ML_ERROR_INVALID_PARAMETER ∧
    (realizeActivationType g r refs).2.adj = g.adj ∧
    (realizeActivationType g r refs).2.num_node = g.num_node := by
  unfold realizeActivationType
  dsimp only
  rw [if_neg hact, if_neg hn, if_neg hty, if_neg hunk, if_pos hout]
  refine ⟨rfl, ?_, ?_⟩
  · rw [setLayer_adj, ensureName_adj, createLayer_adj]
  · rw [setLayer_num_node, ensureName_num_node, createLayer_num_node]

/-- Concrete graph for the C9 witness: one existing node, and a triggering
layer with relu activation but two declared outputs. -/
def c9Graph : NetworkGraph :=
  { store := [{ name := "prev", ltype := "fully_connected" },
              { name := "cur", ltype := "fully_connected",
                activation := ActivationType.ACT_RELU,
                num_outputs := 2, output_layers := ["a", "b"] }],
    adj := [[⟨0, 0⟩]],
    num_node := 1 }

theorem claim_C9_witness :
    (getLayer c9Graph 1).num_outputs ≠ 1 ∧
    (realizeActivationType c9Graph 1 []).1 = ML_ERROR_INVALID_PARAMETER ∧
    (realizeActivationType c9Graph 1 []).2.adj = c9Graph.adj ∧
    (realizeActivationType c9Graph 1 []).2.num_node = c9Graph.num_node :=
  ⟨by decide,
   claim_C9_activation_requires_single_output c9Graph 1 []
     (by decide) (by decide) (by decide) (by decide) (by decide)⟩

/-! ### Claim C8 — determinism of the build -/

/-- Claim C8: the whole pipeline (realization, edge resolution, sorting and
the aliasing decisions) is a deterministic function of the flat layer list
and the initial graph/registry state: equal inputs give equal sorted name
sequences and equal aliasing-decision lists. In this embedding every pass is
a pure function of the `NetworkGraph` state (which carries the name registry
`layer_names`/`def_name_count`), so the outcome depends on nothing else. -/
theorem claim_C8_determinism (g1 g2 : NetworkGraph) (refs1 refs2 : List Nat)
    (lt1 lt2 : LossType) (hg : g1 = g2) (hr : refs1 = refs2) (hl : lt1 = lt2) :
    buildOutcome g1 refs1 lt1 = buildOutcome g2 refs2 lt2 := by
  subst hg; subst hr; subst hl; rfl

/-- Concrete input for the C8 witness. -/
def c8Graph : NetworkGraph :=
  { store := [{ name := "in", ltype := "input", input_dim := [4] },
              { name := "fc", ltype := "fully_connected", input_layers := ["in"] }] }

theorem claim_C8_witness :
    c8Graph = c8Graph ∧
    buildOutcome c8Graph [0, 1] LossType.LOSS_NONE =
      buildOutcome c8Graph [0, 1] LossType.LOSS_NONE :=
  ⟨rfl, claim_C8_determinism c8Graph c8Graph [0, 1] [0, 1]
    LossType.LOSS_NONE LossType.LOSS_NONE rfl rfl rfl⟩

/-! ### Claim C4 — `ensure_name` contract (registration side effect) -/

/-- Two distinct operators both named "foo": the failing input for C4. -/
def c4Graph : NetworkGraph :=
  { store := [{ name := "foo", ltype := "fully_connected" },
              { name := "foo", ltype := "fully_connected" }] }

/-- Claim C4 evaluated at the failing input: `ensureName` never inserts the
chosen name into the used-name set, so after naming the first "foo" layer a
second layer named "foo" also keeps its name unchanged (its name is "not in
the used-name set" because the set is still empty), and the registry is
empty after both calls — the claimed registration side effect does not
happen in the code. -/
theorem claim_C4_no_registration :
    (getLayer (ensureName (ensureName c4Graph 0 "" false) 1 "" false) 0).name = "foo" ∧
    (getLayer (ensureName (ensureName c4Graph 0 "" false) 1 "" false) 1).name = "foo" ∧
    (ensureName (ensureName c4Graph 0 "" false) 1 "" false).layer_names = [] := by
  decide

/-! ### Claim C3 — name uniqueness after a build -/

/-- The C3 failing input: user layers named "Foo", "bar", "foo" forming the
chain `Foo → bar → foo` ("Foo" and "foo" differ only in case). -/
def c3Graph : NetworkGraph :=
  { store := [{ name := "Foo", ltype := "input", input_dim := [10] },
              { name := "bar", ltype := "fully_connected", input_layers := ["Foo"] },
              { name := "foo", ltype := "fully_connected", input_layers := ["bar"] }] }

/-- The sorted name sequence of a successful build, `none` on failure. -/
def buildNames (g : NetworkGraph) (refs : List Nat) (lt : LossType) :
    Option (List String) :=
  match buildPipeline g refs lt with
  | Except.ok g1 => some (sortedNames g1)
  | Except.error _ => none

/-- The registry (used-name set) of a successful build, `none` on failure. -/
def buildRegistry (g : NetworkGraph) (refs : List Nat) (lt : LossType) :
    Option (List String) :=
  match buildPipeline g refs lt with
  | Except.ok g1 => some g1.layer_names
  | Except.error _ => none

/-- Claim C3 evaluated at the failing input: the build SUCCEEDS and the
final sorted graph holds two distinct nodes whose finalized names "Foo" and
"foo" are case-insensitively equal, because `ensureName` never registers any
name in `layer_names` (which is still empty after the build). -/
theorem claim_C3_duplicate_names_after_build :
    buildNames c3Graph [0, 1, 2] LossType.LOSS_NONE = some ["Foo", "bar", "foo"] ∧
    buildRegistry c3Graph [0, 1, 2] LossType.LOSS_NONE = some [] ∧
    istrequal "Foo" "foo" = true := by
  decide

/-! ### Claim C1 — cross-entropy rejection (order of pop and failure) -/

/-- The C1 input: `dense → activation(relu)` and a cross-entropy loss
request. -/
def c1Graph : NetworkGraph :=
  { store := [{ name := "dense", ltype := "fully_connected", output_layers := ["act"] },
              { name := "act", ltype := "activation",
                activation := ActivationType.ACT_RELU,
                input_layers := ["dense"], output_layers := ["__exit__"] }],
    adj := [[⟨0, 0⟩], [⟨1, 1⟩]],
    num_node := 2 }

/-- Counterexample to claim C1 as stated: with the last node an activation
node of relu kind, `addLossLayer LOSS_ENTROPY` does fail with
`ML_ERROR_NOT_SUPPORTED`, but at the moment of failure the activation node
has ALREADY been removed — the returned graph has `num_node = 1` and a
shrunk node sequence, not the unchanged one the claim requires. -/
theorem claim_C1_counterexample :
    addLossLayer c1Graph LossType.LOSS_ENTROPY =
      Except.ok (ML_ERROR_NOT_SUPPORTED, { c1Graph with adj := [[⟨0, 0⟩]], num_node := 1 }) ∧
    ({ c1Graph with adj := [[⟨0, 0⟩]], num_node := 1 } : NetworkGraph).adj ≠ c1Graph.adj ∧
    (⟨1, 1⟩ : LayerNode) ∉
      ({ c1Graph with adj := [[⟨0, 0⟩]], num_node := 1 } : NetworkGraph).adj.filterMap
        List.head? := by
  refine ⟨by decide, by decide, by decide⟩

/-- Claim C1 amended: when a build requests the cross-entropy loss kind and
the last node is an activation node whose activation kind is neither sigmoid
nor softmax, `addLossLayer` fails with `ML_ERROR_NOT_SUPPORTED`
(UnsupportedOperationError), but only AFTER popping that activation node: at
the moment of failure the graph's node sequence has lost its last entry and
`num_node` has been decremented. -/
theorem claim_C1_amended_pop_then_reject (g : NetworkGraph) (actNode : LayerNode)
    (h0 : g.num_node ≠ 0)
    (hfind : getLayerNodeIdx? g.adj g.num_node (g.num_node - 1) = some actNode)
    (hty : (getLayer g actNode.layerRef).ltype = "activation")
    (hsig : (getLayer g actNode.layerRef).activation ≠ ActivationType.ACT_SIGMOID)
    (hsoft : (getLayer g actNode.layerRef).activation ≠ ActivationType.ACT_SOFTMAX) :
    addLossLayer g LossType.LOSS_ENTROPY =
      Except.ok (ML_ERROR_NOT_SUPPORTED,
        { g with adj := g.adj.dropLast, num_node := g.num_node - 1 }) := by
  unfold addLossLayer
  rw [if_neg h0]
  dsimp only
  rw [hfind]
  dsimp only
  have hne : ¬((getLayer g actNode.layerRef).ltype ≠ "activation") := by
    rw [hty]
    exact fun h => h rfl
  rw [if_neg hne]
  have hsame : getLayer { g with adj := g.adj.dropLast, num_node := g.num_node - 1 }
      actNode.layerRef = getLayer g actNode.layerRef := rfl
  rw [hsame]
  cases hcase : (getLayer g actNode.layerRef).activation with
  | ACT_SIGMOID => exact absurd hcase hsig
  | ACT_SOFTMAX => exact absurd hcase hsoft
  | ACT_TANH => rfl
  | ACT_RELU => rfl
  | ACT_NONE => rfl
  | ACT_UNKNOWN => rfl

theorem claim_C1_amended_witness :
    c1Graph.num_node ≠ 0 ∧
    getLayerNodeIdx? c1Graph.adj c1Graph.num_node (c1Graph.num_node - 1) =
      some ⟨1, 1⟩ ∧
    (getLayer c1Graph (1 : Nat)).ltype = "activation" ∧
    addLossLayer c1Graph LossType.LOSS_ENTROPY =
      Except.ok (ML_ERROR_NOT_SUPPORTED,
        { c1Graph with adj := c1Graph.adj.dropLast, num_node := c1Graph.num_node - 1 }) :=
  ⟨by decide, by decide, by decide,
   claim_C1_amended_pop_then_reject c1Graph ⟨1, 1⟩ (by decide) (by decide)
     (by decide) (by decide) (by decide)⟩

/-! ### Claim C7 — fan-in combiner insertion -/

theorem nameUsed_nil (s : String) : nameUsed [] s = false := rfl

/-- With an empty registry, a layer whose name is non-empty keeps it. -/
theorem ensureName_keep (g : NetworkGraph) (r : Nat) (pre : String)
    (hnm : g.layer_names = []) (hne : (getLayer g r).name.isEmpty = false) :
    ensureName g r pre false = g := by
  unfold ensureName
  dsimp only
  rw [hnm, hne]
  rw [if_pos ⟨by simp, by simp, nameUsed_nil _⟩]

/-- With an empty registry, a layer with an empty name gets
`pre ++ type-tag ++ counter` and the counter is bumped once. -/
theorem ensureName_synth (g : NetworkGraph) (r : Nat) (pre : String)
    (hnm : g.layer_names = []) (he : (getLayer g r).name.isEmpty = true) :
    ensureName g r pre false =
      { setLayer g r
          { getLayer g r with
            name := (pre ++ (getLayer g r).ltype) ++ toString g.def_name_count } with
        def_name_count := g.def_name_count + 1 } := by
  unfold ensureName
  dsimp only
  rw [hnm, he]
  rw [if_neg (by simp)]
  rw [if_neg (by simp)]
  rfl

/-- Non-emptiness of names synthesized with the "addition" base. -/
theorem addition_name_nonempty (a b : String) :
    ((a ++ addition_type_tag) ++ b).isEmpty = false := by
  rw [Bool.eq_false_iff]
  intro h
  rw [String.isEmpty_iff] at h
  have h2 : ((a ++ addition_type_tag) ++ b).length = 0 := by rw [h]; rfl
  simp [String.length_append] at h2
  have h3 : (addition_type_tag : String).length = 8 := by decide
  omega

/-- Setting the freshly appended last cell of a heap. -/
theorem set_last {α : Type} (l : List α) (a b : α) :
    (l ++ [a]).set l.length b = l ++ [b] := by
  rw [List.set_append_right _ _ (Nat.le_refl _)]
  simp

/-- Reading the appended cell past a `set` inside the original heap. -/
theorem getD_set_append_self {α : Type} (l : List α) (r : Nat) (a b d : α)
    (hr : r < l.length) :
    (l.set r a ++ [b]).getD l.length d = b := by
  have hlen : l.length = (l.set r a).length := by simp
  rw [hlen, getD_append_self]

/-- Exact result of `realizeMultiInputType` on a multi-input node with an
empty registry: one combiner appended, the original rewired to it. -/
theorem realizeMultiInputType_spec (g : NetworkGraph) (r : Nat)
    (hnames : g.layer_names = []) (hr : r < g.store.length)
    (hne1 : ¬((getLayer g r).num_inputs = 1)) :
    realizeMultiInputType g r =
      (ML_ERROR_NONE,
        { g with
          store := g.store.set r
              { getLayer g r with
                num_inputs := 1,
                input_layers := [((getLayer g r).name ++ addition_type_tag) ++
                  toString g.def_name_count] } ++
            [{ name := ((getLayer g r).name ++ addition_type_tag) ++
                 toString g.def_name_count,
               ltype := addition_type_tag,
               num_inputs := (getLayer g r).num_inputs,
               input_dim := resizeD [0] (getLayer g r).num_inputs,
               input_layers := (getLayer g r).input_layers }],
          adj := g.adj ++ [[⟨g.store.length, g.num_node⟩]],
          num_node := g.num_node + 1,
          def_name_count := g.def_name_count + 1 }) := by
  have hfresh : getLayer { g with store := g.store ++ [{ ltype := addition_type_tag }] }
      g.store.length = { ltype := addition_type_tag } := by
    unfold getLayer
    exact getD_append_self g.store _ _
  unfold realizeMultiInputType
  dsimp only
  rw [if_neg hne1]
  unfold createLayer
  dsimp only
  rw [ensureName_synth _ _ _ (by simpa using hnames) (by rw [hfresh]; rfl)]
  rw [hfresh]
  unfold setLayer getLayer
  dsimp only
  rw [set_last]
  rw [getD_append_self]
  dsimp only
  rw [set_last]
  rw [getD_append_left _ _ _ _ hr]
  rw [List.set_append_left _ _ hr]
  unfold addLayerNode
  rw [ensureName_keep _ _ _ (by simpa using hnames)
    (by
      unfold getLayer
      dsimp only
      rw [getD_set_append_self _ _ _ _ _ hr]
      exact addition_name_nonempty _ _)]

/-- Claim C7: for a node declaring 3 inputs (and, per the `setGraphNode`
guard, a type that is not a combiner kind), `realizeMultiInputType` appends
exactly one combiner (addition) node taking the 3 input names and producing
1 output, and rewrites the original node to exactly 1 input: the combiner's
name. (`layer_names = []` holds in every reachable state, since nothing ever
inserts into it.) -/
theorem claim_C7_fan_in_insertion (g : NetworkGraph) (r : Nat) (x y z : String)
    (hr : r < g.store.length)
    (hnames : g.layer_names = [])
    (hty : (getLayer g r).ltype ≠ addition_type_tag ∧
      (getLayer g r).ltype ≠ concat_type_tag)
    (hin : (getLayer g r).num_inputs = 3)
    (hil : (getLayer g r).input_layers = [x, y, z]) :
    (realizeMultiInputType g r).1 = ML_ERROR_NONE ∧
    (realizeMultiInputType g r).2.adj =
      g.adj ++ [[⟨g.store.length, g.num_node⟩]] ∧
    (realizeMultiInputType g r).2.num_node = g.num_node + 1 ∧
    (getLayer (realizeMultiInputType g r).2 g.store.length).ltype = addition_type_tag ∧
    (getLayer (realizeMultiInputType g r).2 g.store.length).num_inputs = 3 ∧
    (getLayer (realizeMultiInputType g r).2 g.store.length).input_layers = [x, y, z] ∧
    (getLayer (realizeMultiInputType g r).2 g.store.length).num_outputs = 1 ∧
    (getLayer (realizeMultiInputType g r).2 r).num_inputs = 1 ∧
    (getLayer (realizeMultiInputType g r).2 r).input_layers =
      [(getLayer (realizeMultiInputType g r).2 g.store.length).name] := by
  have hne1 : ¬((getLayer g r).num_inputs = 1) := by rw [hin]; decide
  rw [realizeMultiInputType_spec g r hnames hr hne1]
  have hnew : getLayer
      (realizeMultiInputType g r).2 g.store.length = getLayer (realizeMultiInputType g r).2 g.store.length := rfl
  unfold getLayer
  dsimp only
  rw [getD_set_append_self _ _ _ _ _ hr]
  rw [getD_append_left _ _ _ _ (by simpa using hr), getD_set_self _ _ _ _ hr]
  refine ⟨rfl, rfl, rfl, rfl, hin, hil, rfl, rfl, rfl⟩

/-- Concrete input for the C7 witness: a node "sum3" declaring the three
inputs "a", "b", "c". -/
def c7Graph : NetworkGraph :=
  { store := [{ name := "sum3", ltype := "fully_connected", num_inputs := 3,
                input_layers := ["a", "b", "c"] }] }

theorem claim_C7_witness :
    (0 : Nat) < c7Graph.store.length ∧
    (getLayer c7Graph 0).num_inputs = 3 ∧
    (realizeMultiInputType c7Graph 0).1 = ML_ERROR_NONE ∧
    (realizeMultiInputType c7Graph 0).2.adj =
      c7Graph.adj ++ [[⟨c7Graph.store.length, c7Graph.num_node⟩]] ∧
    (realizeMultiInputType c7Graph 0).2.num_node = c7Graph.num_node + 1 ∧
    (getLayer (realizeMultiInputType c7Graph 0).2 c7Graph.store.length).ltype =
      addition_type_tag ∧
    (getLayer (realizeMultiInputType c7Graph 0).2 c7Graph.store.length).num_inputs = 3 ∧
    (getLayer (realizeMultiInputType c7Graph 0).2 c7Graph.store.length).input_layers =
      ["a", "b", "c"] ∧
    (getLayer (realizeMultiInputType c7Graph 0).2 c7Graph.store.length).num_outputs = 1 ∧
    (getLayer (realizeMultiInputType c7Graph 0).2 0).num_inputs = 1 ∧
    (getLayer (realizeMultiInputType c7Graph 0).2 0).input_layers =
      [(getLayer (realizeMultiInputType c7Graph 0).2 c7Graph.store.length).name] := by
  have h := claim_C7_fan_in_insertion c7Graph 0 "a" "b" "c" (by decide) (by decide)
    ⟨by decide, by decide⟩ (by decide) (by decide)
  exact ⟨by decide, by decide, h.1, h.2.1, h.2.2.1, h.2.2.2.1, h.2.2.2.2.1,
    h.2.2.2.2.2.1, h.2.2.2.2.2.2.1, h.2.2.2.2.2.2.2.1, h.2.2.2.2.2.2.2.2⟩

/-! ### Claim C5 — cross-entropy fusion -/

theorem findNodeFrom_heads (adjL : List (List LayerNode)) (ith : Nat) (nd : LayerNode) :
    ∀ is : List Nat, findNodeFrom adjL ith is = some nd →
      ∃ i ∈ is, (adjL.getD i []).head? = some nd ∧ nd.index = ith := by
  intro is
  induction is with
  | nil => intro h; exact absurd h (by simp [findNodeFrom])
  | cons i rest ih =>
    intro h
    unfold findNodeFrom at h
    cases hh : (adjL.getD i []).head? with
    | none =>
      rw [hh] at h
      obtain ⟨j, hj, hj2⟩ := ih h
      exact ⟨j, List.mem_cons_of_mem i hj, hj2⟩
    | some nd0 =>
      rw [hh] at h
      dsimp only at h
      by_cases he : nd0.index = ith
      · rw [if_pos he] at h
        cases h
        exact ⟨i, List.mem_cons_self i rest, hh, he⟩
      · rw [if_neg he] at h
        obtain ⟨j, hj, hj2⟩ := ih h
        exact ⟨j, List.mem_cons_of_mem i hj, hj2⟩

theorem getLayerNodeIdx?_heads (adjL : List (List LayerNode)) (numNode ith : Nat)
    (nd : LayerNode) (h : getLayerNodeIdx? adjL numNode ith = some nd) :
    ∃ i, i < numNode ∧ (adjL.getD i []).head? = some nd ∧ nd.index = ith := by
  obtain ⟨i, hi, h2⟩ := findNodeFrom_heads adjL ith nd (List.range numNode) h
  exact ⟨i, List.mem_range.1 hi, h2⟩

/-- Stack growth of the successor loop: every node in the output stack was
already on the input stack or is a head node of the graph. -/
theorem sortVisitSuccs_stack_mem
    (visit : Nat → List Bool → List LayerNode → Option (List Bool × List LayerNode))
    (P : LayerNode → Prop)
    (hvisit : ∀ i v s v2 s2, visit i v s = some (v2, s2) →
      ∀ nd ∈ s2, nd ∈ s ∨ P nd) :
    ∀ (succs : List LayerNode) (visited : List Bool) (stack : List LayerNode)
      (v2 : List Bool) (s2 : List LayerNode),
      sortVisitSuccs visit succs visited stack = some (v2, s2) →
      ∀ nd ∈ s2, nd ∈ stack ∨ P nd := by
  intro succs
  induction succs with
  | nil =>
    intro visited stack v2 s2 h nd hnd
    unfold sortVisitSuccs at h
    cases h
    exact Or.inl hnd
  | cons x rest ih =>
    intro visited stack v2 s2 h nd hnd
    unfold sortVisitSuccs at h
    by_cases hv : visGet visited x.index
    · rw [if_pos hv] at h
      exact ih visited stack v2 s2 h nd hnd
    · rw [if_neg hv] at h
      cases hu : visit x.index visited stack with
      | none => rw [hu] at h; exact absurd h (by simp)
      | some p =>
        rw [hu] at h
        obtain ⟨v3, s3⟩ := p
        rcases ih v3 s3 v2 s2 h nd hnd with h1 | h1
        · exact hvisit x.index visited stack v3 s3 hu nd h1
        · exact Or.inr h1

/-- Stack growth of `topologicalSortUtil`: every pushed node is a head node
of the graph. -/
theorem topologicalSortUtil_stack_mem (adjL : List (List LayerNode)) (numNode : Nat) :
    ∀ (fuel ith : Nat) (visited : List Bool) (stack : List LayerNode)
      (v2 : List Bool) (s2 : List LayerNode),
      topologicalSortUtil adjL numNode fuel ith visited stack = some (v2, s2) →
      ∀ nd ∈ s2, nd ∈ stack ∨
        ∃ i, i < numNode ∧ (adjL.getD i []).head? = some nd := by
  intro fuel
  induction fuel with
  | zero =>
    intro ith visited stack v2 s2 h
    exact absurd h (by simp [topologicalSortUtil])
  | succ f ih =>
    intro ith visited stack v2 s2 h
    unfold topologicalSortUtil at h
    cases hs : sortVisitSuccs (fun i v s => topologicalSortUtil adjL numNode f i v s)
        (adjL.getD ith []) (visited.set ith true) stack with
    | none => rw [hs] at h; exact absurd h (by simp)
    | some p =>
      rw [hs] at h
      obtain ⟨v3, s3⟩ := p
      cases hg : getLayerNodeIdx? adjL numNode ith with
      | none => rw [hg] at h; exact absurd h (by simp)
      | some nd0 =>
        rw [hg] at h
        cases h
        intro nd hnd
        rcases List.mem_cons.1 hnd with h1 | h1
        · subst h1
          obtain ⟨i, hi, hh, _⟩ := getLayerNodeIdx?_heads adjL numNode ith nd hg
          exact Or.inr ⟨i, hi, hh⟩
        · exact sortVisitSuccs_stack_mem _ _
            (fun i v s w2 t2 hh => ih i v s w2 t2 hh) _ _ _ _ _ hs nd h1

/-- Stack growth of the driver loop. -/
theorem sortLoop_stack_mem (adjL : List (List LayerNode)) (numNode : Nat) :
    ∀ (is : List Nat) (visited : List Bool) (stack : List LayerNode)
      (v2 : List Bool) (s2 : List LayerNode),
      sortLoop adjL numNode is visited stack = some (v2, s2) →
      ∀ nd ∈ s2, nd ∈ stack ∨
        ∃ i, i < numNode ∧ (adjL.getD i []).head? = some nd := by
  intro is
  induction is with
  | nil =>
    intro visited stack v2 s2 h nd hnd
    unfold sortLoop at h
    cases h
    exact Or.inl hnd
  | cons i rest ih =>
    intro visited stack v2 s2 h nd hnd
    unfold sortLoop at h
    by_cases hv : visGet visited i
    · rw [if_pos hv] at h
      exact ih visited stack v2 s2 h nd hnd
    · rw [if_neg hv] at h
      cases hu : topologicalSortUtil adjL numNode numNode i visited stack with
      | none => rw [hu] at h; exact absurd h (by simp)
      | some p =>
        rw [hu] at h
        obtain ⟨v3, s3⟩ := p
        rcases ih v3 s3 v2 s2 h nd hnd with h1 | h1
        · exact topologicalSortUtil_stack_mem adjL numNode numNode i
            visited stack v3 s3 hu nd h1
        · exact Or.inr h1

theorem countNonTrainableLayersAtBegin_Sorted (g : NetworkGraph) :
    (countNonTrainableLayersAtBegin g).Sorted = g.Sorted := by
  unfold countNonTrainableLayersAtBegin
  cases firstTrainableIdx g g.Sorted 0 <;> rfl

/-- Every node of the final sorted order was already in `Sorted` before the
sort (empty on a fresh build) or is a head node of some adjacency slot. -/
theorem topologicalSort_sorted_mem (g g2 : NetworkGraph)
    (h : topologicalSort g = some g2) :
    ∀ nd ∈ g2.Sorted, nd ∈ g.Sorted ∨
      ∃ i, i < g.num_node ∧ (g.adj.getD i []).head? = some nd := by
  unfold topologicalSort at h
  cases hs : sortLoop g.adj g.num_node (List.range g.num_node)
      (List.replicate g.num_node false) [] with
  | none => rw [hs] at h; exact absurd h (by simp)
  | some p =>
    rw [hs] at h
    obtain ⟨v2, s2⟩ := p
    cases h
    intro nd hnd
    rw [countNonTrainableLayersAtBegin_Sorted] at hnd
    dsimp only at hnd
    rcases List.mem_append.1 hnd with h1 | h1
    · exact Or.inl h1
    · rcases sortLoop_stack_mem g.adj g.num_node _ _ _ _ _ hs nd h1 with h2 | h2
      · exact absurd h2 (List.not_mem_nil nd)
      · exact Or.inr h2

/-- A head node of some adjacency slot is among the graph's head nodes. -/
theorem head_getD_mem (adjL : List (List LayerNode)) (i : Nat) (nd : LayerNode)
    (h : (adjL.getD i []).head? = some nd) : nd ∈ adjL.filterMap List.head? := by
  by_cases hi : i < adjL.length
  · rw [List.getD_eq_getElem?_getD, List.getElem?_eq_getElem hi] at h
    exact List.mem_filterMap.2 ⟨adjL[i], List.getElem_mem hi, h⟩
  · rw [getD_of_length_le _ _ _ (Nat.le_of_not_lt hi)] at h
    exact absurd h (by simp)

/-- Non-emptiness of any name synthesized from a non-empty base. -/
theorem synth_name_nonempty (a mid b : String) (hm : mid.length ≠ 0) :
    ((a ++ mid) ++ b).isEmpty = false := by
  rw [Bool.eq_false_iff]
  intro h
  rw [String.isEmpty_iff] at h
  have h2 : ((a ++ mid) ++ b).length = 0 := by rw [h]; rfl
  simp [String.length_append] at h2
  omega

/-- Overwriting the appended cell past a `set` inside the original heap. -/
theorem set_last_set {α : Type} (l : List α) (p : Nat) (a b c : α) :
    ((l.set p a) ++ [b]).set l.length c = l.set p a ++ [c] := by
  rw [show l.length = (l.set p a).length from by simp, set_last]

/-- Exact result of `addLossLayer LOSS_ENTROPY` when the last node is an
activation node of softmax or sigmoid kind (with the matching fused loss
kind `updated`): the activation node is removed, and one loss node carrying
the fused kind is appended, consuming the name of the node that remains
last; that node's outputs are rewritten to the loss node. -/
theorem addLossLayer_entropy_fusion_spec (g : NetworkGraph)
    (actNode prevNode : LayerNode) (updated : LossType)
    (hn2 : 2 ≤ g.num_node)
    (hnames : g.layer_names = [])
    (hfind : getLayerNodeIdx? g.adj g.num_node (g.num_node - 1) = some actNode)
    (hty : (getLayer g actNode.layerRef).ltype = "activation")
    (hcase : ((getLayer g actNode.layerRef).activation = ActivationType.ACT_SOFTMAX ∧
        updated = LossType.LOSS_ENTROPY_SOFTMAX) ∨
      ((getLayer g actNode.layerRef).activation = ActivationType.ACT_SIGMOID ∧
        updated = LossType.LOSS_ENTROPY_SIGMOID))
    (hprev : getLayerNodeIdx? g.adj.dropLast (g.num_node - 1) (g.num_node - 1 - 1) =
      some prevNode)
    (hprevref : prevNode.layerRef < g.store.length) :
    addLossLayer g LossType.LOSS_ENTROPY =
      Except.ok (ML_ERROR_NONE,
        { g with
          store := g.store.set prevNode.layerRef
              { getLayer g prevNode.layerRef with
                num_outputs := 1,
                output_layers := [("" ++ loss_type_tag) ++ toString g.def_name_count] } ++
            [{ name := ("" ++ loss_type_tag) ++ toString g.def_name_count,
               ltype := loss_type_tag,
               loss := updated,
               num_inputs := 1,
               input_layers := [(getLayer g prevNode.layerRef).name],
               num_outputs := 1,
               output_dim := resizeD [0] 1,
               output_layers := ["__exit__"] }],
          adj := g.adj.dropLast ++ [[⟨g.store.length, g.num_node - 1⟩]],
          num_node := (g.num_node - 1) + 1,
          def_name_count := g.def_name_count + 1 }) := by
  have h0 : g.num_node ≠ 0 := by omega
  have hempty : (getLayer { store := g.store ++ [{ ltype := loss_type_tag }], adj := g.adj.dropLast, num_node := g.num_node - 1, Sorted := g.Sorted, layer_names := g.layer_names, def_name_count := g.def_name_count, skip_non_trainable_layers := g.skip_non_trainable_layers } g.store.length).name.isEmpty = true := by
    unfold getLayer
    dsimp only
    rw [getD_append_self]
    rfl
  have hfreshL : getLayer { store := g.store ++ [{ ltype := loss_type_tag }], adj := g.adj.dropLast, num_node := g.num_node - 1, Sorted := g.Sorted, layer_names := g.layer_names, def_name_count := g.def_name_count, skip_non_trainable_layers := g.skip_non_trainable_layers } g.store.length = { ltype := loss_type_tag } := by
    unfold getLayer
    dsimp only
    rw [getD_append_self]
  unfold addLossLayer
  rw [if_neg h0]
  dsimp only
  rw [if_pos rfl]
  rw [hfind]
  dsimp only
  rw [if_neg (show ¬((getLayer g actNode.layerRef).ltype ≠ "activation") from by
    rw [hty]; exact fun h => h rfl)]
  have hG1 : getLayer { g with adj := g.adj.dropLast, num_node := g.num_node - 1 }
      actNode.layerRef = getLayer g actNode.layerRef := rfl
  rw [hG1]
  rcases hcase with ⟨hax, hup⟩ | ⟨hax, hup⟩ <;> subst hup <;> rw [hax] <;>
    dsimp only <;>
    rw [if_neg (show ¬(g.num_node - 1 = 0) from by omega)] <;>
    rw [hprev] <;>
    dsimp only <;>
    unfold createLayer <;>
    dsimp only <;>
    rw [ensureName_synth _ _ _ (by simpa using hnames) hempty] <;>
    rw [hfreshL] <;>
    unfold setLayer getLayer <;>
    dsimp only <;>
    rw [set_last] <;>
    rw [getD_append_self] <;>
    rw [getD_append_left _ _ _ _ hprevref] <;>
    rw [List.set_append_left _ _ hprevref] <;>
    rw [getD_set_append_self _ _ _ _ _ hprevref] <;>
    dsimp only <;>
    rw [if_pos (show ([] : List String).length = 0 from rfl)] <;>
    unfold setLoss
  · rw [if_neg (show ¬(LossType.LOSS_ENTROPY_SOFTMAX = LossType.LOSS_UNKNOWN) from
      by decide)]
    dsimp only
    rw [if_neg (show ¬(ML_ERROR_NONE ≠ ML_ERROR_NONE) from fun h => h rfl)]
    rw [set_last_set]
    unfold addLayerNode
    rw [ensureName_keep _ _ _ (by simpa using hnames)
      (by
        unfold getLayer
        dsimp only
        rw [getD_set_append_self _ _ _ _ _ hprevref]
        exact synth_name_nonempty _ _ _ (by decide))]
    rfl
  · rw [if_neg (show ¬(LossType.LOSS_ENTROPY_SIGMOID = LossType.LOSS_UNKNOWN) from
      by decide)]
    dsimp only
    rw [if_neg (show ¬(ML_ERROR_NONE ≠ ML_ERROR_NONE) from fun h => h rfl)]
    rw [set_last_set]
    unfold addLayerNode
    rw [ensureName_keep _ _ _ (by simpa using hnames)
      (by
        unfold getLayer
        dsimp only
        rw [getD_set_append_self _ _ _ _ _ hprevref]
        exact synth_name_nonempty _ _ _ (by decide))]
    rfl

/-- Claim C5: with cross-entropy requested and the last node an activation
node of softmax (respectively sigmoid) kind, `addLossLayer` deletes that
activation node from the graph, appends one loss node recording the fused
softmax- (respectively sigmoid-) cross-entropy kind that consumes the
remaining last node's output name (that node's outputs are rewired to the
loss node), and the deleted activation node appears neither among the
graph's nodes nor in any subsequently computed sorted order. -/
theorem claim_C5_cross_entropy_fusion (g : NetworkGraph)
    (actNode prevNode : LayerNode)
    (hn2 : 2 ≤ g.num_node)
    (hnames : g.layer_names = [])
    (hfind : getLayerNodeIdx? g.adj g.num_node (g.num_node - 1) = some actNode)
    (hty : (getLayer g actNode.layerRef).ltype = "activation")
    (hact : (getLayer g actNode.layerRef).activation = ActivationType.ACT_SOFTMAX ∨
      (getLayer g actNode.layerRef).activation = ActivationType.ACT_SIGMOID)
    (hprev : getLayerNodeIdx? g.adj.dropLast (g.num_node - 1) (g.num_node - 1 - 1) =
      some prevNode)
    (hprevref : prevNode.layerRef < g.store.length)
    (hactref : actNode.layerRef < g.store.length)
    (hnotin : actNode ∉ g.adj.dropLast.filterMap List.head?)
    (hSnot : actNode ∉ g.Sorted) :
    ∃ g2, addLossLayer g LossType.LOSS_ENTROPY = Except.ok (ML_ERROR_NONE, g2) ∧
      g2.adj = g.adj.dropLast ++ [[⟨g.store.length, g.num_node - 1⟩]] ∧
      g2.num_node = g.num_node ∧
      (getLayer g2 g.store.length).ltype = loss_type_tag ∧
      (getLayer g2 g.store.length).loss =
        (if (getLayer g actNode.layerRef).activation = ActivationType.ACT_SOFTMAX
         then LossType.LOSS_ENTROPY_SOFTMAX else LossType.LOSS_ENTROPY_SIGMOID) ∧
      (getLayer g2 g.store.length).input_layers =
        [(getLayer g prevNode.layerRef).name] ∧
      (getLayer g2 prevNode.layerRef).output_layers =
        [(getLayer g2 g.store.length).name] ∧
      actNode ∉ g2.adj.filterMap List.head? ∧
      (∀ g3, topologicalSort g2 = some g3 → actNode ∉ g3.Sorted) := by
  have hcase : ((getLayer g actNode.layerRef).activation = ActivationType.ACT_SOFTMAX ∧
      (if (getLayer g actNode.layerRef).activation = ActivationType.ACT_SOFTMAX
        then LossType.LOSS_ENTROPY_SOFTMAX else LossType.LOSS_ENTROPY_SIGMOID) =
        LossType.LOSS_ENTROPY_SOFTMAX) ∨
      ((getLayer g actNode.layerRef).activation = ActivationType.ACT_SIGMOID ∧
      (if (getLayer g actNode.layerRef).activation = ActivationType.ACT_SOFTMAX
        then LossType.LOSS_ENTROPY_SOFTMAX else LossType.LOSS_ENTROPY_SIGMOID) =
        LossType.LOSS_ENTROPY_SIGMOID) := by
    rcases hact with hax | hax
    · exact Or.inl ⟨hax, by rw [if_pos hax]⟩
    · refine Or.inr ⟨hax, ?_⟩
      rw [if_neg (by rw [hax]; decide)]
  have hspec := addLossLayer_entropy_fusion_spec g actNode prevNode _ hn2 hnames
    hfind hty hcase hprev hprevref
  refine ⟨_, hspec, rfl, by dsimp only; omega, ?_, ?_, ?_, ?_, ?_, ?_⟩
  · unfold getLayer
    dsimp only
    rw [getD_set_append_self _ _ _ _ _ hprevref]
  · unfold getLayer
    dsimp only
    rw [getD_set_append_self _ _ _ _ _ hprevref]
  · unfold getLayer
    dsimp only
    rw [getD_set_append_self _ _ _ _ _ hprevref]
  · unfold getLayer
    dsimp only
    rw [getD_set_append_self _ _ _ _ _ hprevref]
    rw [getD_append_left _ _ _ _ (by simpa using hprevref)]
    rw [getD_set_self _ _ _ _ hprevref]
  · intro hmem
    dsimp only at hmem
    rw [List.filterMap_append] at hmem
    rcases List.mem_append.1 hmem with h | h
    · exact hnotin h
    · simp only [List.filterMap, List.head?] at h
      have h2 : actNode = ⟨g.store.length, g.num_node - 1⟩ := by simpa using h
      rw [h2] at hactref
      dsimp only at hactref
      omega
  · intro g3 hsort hmem
    rcases topologicalSort_sorted_mem _ _ hsort actNode hmem with h | ⟨i, _, hh⟩
    · exact hSnot (by simpa using h)
    · have hin : actNode ∈ ((g.adj.dropLast ++
          [[(⟨g.store.length, g.num_node - 1⟩ : LayerNode)]]).filterMap List.head?) := by
        apply head_getD_mem _ i
        simpa using hh
      rw [List.filterMap_append] at hin
      rcases List.mem_append.1 hin with h | h
      · exact hnotin h
      · have h2 : actNode = ⟨g.store.length, g.num_node - 1⟩ := by simpa using h
        rw [h2] at hactref
        dsimp only at hactref
        omega

/-- Concrete input for the C5 witness: `dense → activation(softmax)` with a
cross-entropy loss request. -/
def c5Graph : NetworkGraph :=
  { store := [{ name := "dense", ltype := "fully_connected", output_layers := ["act"] },
              { name := "act", ltype := "activation",
                activation := ActivationType.ACT_SOFTMAX,
                input_layers := ["dense"], output_layers := ["__exit__"] }],
    adj := [[⟨0, 0⟩], [⟨1, 1⟩]],
    num_node := 2 }

theorem claim_C5_witness :
    2 ≤ c5Graph.num_node ∧
    getLayerNodeIdx? c5Graph.adj c5Graph.num_node (c5Graph.num_node - 1) =
      some ⟨1, 1⟩ ∧
    (getLayer c5Graph (1 : Nat)).activation = ActivationType.ACT_SOFTMAX ∧
    (∃ g2, addLossLayer c5Graph LossType.LOSS_ENTROPY =
        Except.ok (ML_ERROR_NONE, g2) ∧
      g2.adj = c5Graph.adj.dropLast ++ [[⟨c5Graph.store.length, c5Graph.num_node - 1⟩]] ∧
      g2.num_node = c5Graph.num_node ∧
      (getLayer g2 c5Graph.store.length).ltype = loss_type_tag ∧
      (getLayer g2 c5Graph.store.length).loss =
        (if (getLayer c5Graph ((⟨1, 1⟩ : LayerNode)).layerRef).activation =
            ActivationType.ACT_SOFTMAX
         then LossType.LOSS_ENTROPY_SOFTMAX else LossType.LOSS_ENTROPY_SIGMOID) ∧
      (getLayer g2 c5Graph.store.length).input_layers =
        [(getLayer c5Graph ((⟨0, 0⟩ : LayerNode)).layerRef).name] ∧
      (getLayer g2 ((⟨0, 0⟩ : LayerNode)).layerRef).output_layers =
        [(getLayer g2 c5Graph.store.length).name] ∧
      (⟨1, 1⟩ : LayerNode) ∉ g2.adj.filterMap List.head? ∧
      (∀ g3, topologicalSort g2 = some g3 → (⟨1, 1⟩ : LayerNode) ∉ g3.Sorted)) :=
  ⟨by decide, by decide, by decide,
   claim_C5_cross_entropy_fusion c5Graph ⟨1, 1⟩ ⟨0, 0⟩ (by decide) (by decide)
     (by decide) (by decide) (Or.inl (by decide)) (by decide) (by decide)
     (by decide) (by decide) (by decide)⟩

/-! ### Claim C6 — aliasing exclusion -/

/-- The full selection condition under which `inPlaceOptimize`'s pass for
type `t` aliases a node (given the pass completes without throwing): the
node is of type `t`, not a softmax activation, its predecessor lookup
succeeds and the predecessor is neither the external-input node nor of an
allow-listed type. -/
def aliasSelected (g : NetworkGraph) (t : String) (nd : LayerNode) : Bool :=
  decide ((getLayer g nd.layerRef).ltype = t) &&
  decide ((getLayer g nd.layerRef).activation ≠ ActivationType.ACT_SOFTMAX) &&
  (match getLayerNodeByName g ((getLayer g nd.layerRef).input_layers.headD "") with
   | none => false
   | some pnd =>
     decide ((getLayer g pnd.layerRef).ltype ≠ input_type_tag) &&
     decide ((getLayer g pnd.layerRef).ltype ∉ in_place_layers))

/-- On a pass that completes, the aliased node names are exactly the names
of the sorted nodes satisfying `aliasSelected`, in order. -/
theorem inPlaceOptimizeType_names (g : NetworkGraph) (t : String) :
    ∀ (nds : List LayerNode) (evs : List (String × String × Nat)),
      inPlaceOptimizeType g t nds = Except.ok evs →
      evs.map (fun e => e.1) =
        (nds.filter (aliasSelected g t)).map
          (fun nd => (getLayer g nd.layerRef).name) := by
  intro nds
  induction nds with
  | nil =>
    intro evs h
    unfold inPlaceOptimizeType at h
    cases h
    rfl
  | cons nd rest ih =>
    intro evs h
    unfold inPlaceOptimizeType at h
    rw [List.filter_cons]
    by_cases hc1 : (getLayer g nd.layerRef).ltype = t ∧
        (getLayer g nd.layerRef).activation ≠ ActivationType.ACT_SOFTMAX
    · rw [if_pos hc1] at h
      by_cases hlen : (getLayer g nd.layerRef).input_layers.length ≠ 1
      · rw [if_pos hlen] at h
        exact absurd h (by simp)
      · rw [if_neg hlen] at h
        cases hlk : getLayerNodeByName g
            ((getLayer g nd.layerRef).input_layers.headD "") with
        | none =>
          rw [hlk] at h
          exact absurd h (by simp)
        | some pnd =>
          rw [hlk] at h
          dsimp only at h
          by_cases hloc : (getLayer g pnd.layerRef).output_layers.indexOf
              (getLayer g nd.layerRef).name =
              (getLayer g pnd.layerRef).output_layers.length
          · rw [if_pos hloc] at h
            exact absurd h (by simp)
          · rw [if_neg hloc] at h
            by_cases hinp : (getLayer g pnd.layerRef).ltype = input_type_tag
            · rw [if_pos hinp] at h
              have hsel : aliasSelected g t nd = false := by
                unfold aliasSelected
                rw [hlk]
                simp [hinp]
              rw [if_neg (by rw [hsel]; exact Bool.false_ne_true)]
              exact ih evs h
            · rw [if_neg hinp] at h
              by_cases hallow : in_place_layers.contains (getLayer g pnd.layerRef).ltype
              · rw [if_pos hallow] at h
                have hm : (getLayer g pnd.layerRef).ltype ∈ in_place_layers := by
                  simpa using hallow
                have hsel : aliasSelected g t nd = false := by
                  unfold aliasSelected
                  rw [hlk]
                  simp [hm]
                rw [if_neg (by rw [hsel]; exact Bool.false_ne_true)]
                exact ih evs h
              · rw [if_neg hallow] at h
                have hm : (getLayer g pnd.layerRef).ltype ∉ in_place_layers := by
                  simpa using hallow
                have hsel : aliasSelected g t nd = true := by
                  unfold aliasSelected
                  rw [hlk]
                  simp [hc1.1, hc1.2, hinp, hm]
                rw [if_pos (by rw [hsel])]
                by_cases hbn : (getLayer g nd.layerRef).ltype =
                    batch_normalization_type_tag
                · rw [if_pos hbn] at h
                  cases hrest : inPlaceOptimizeType g t rest with
                  | error e => rw [hrest] at h; exact absurd h (by simp)
                  | ok evs2 =>
                    rw [hrest] at h
                    dsimp only at h
                    cases h
                    dsimp only [List.map]
                    rw [ih evs2 hrest]
                · rw [if_neg hbn] at h
                  by_cases hat : (getLayer g nd.layerRef).ltype = activation_type_tag
                  · rw [if_pos hat] at h
                    cases hrest : inPlaceOptimizeType g t rest with
                    | error e => rw [hrest] at h; exact absurd h (by simp)
                    | ok evs2 =>
                      rw [hrest] at h
                      dsimp only at h
                      cases h
                      dsimp only [List.map]
                      rw [ih evs2 hrest]
                  · rw [if_neg hat] at h
                    exact absurd h (by simp)
    · rw [if_neg hc1] at h
      have hsel : aliasSelected g t nd = false := by
        unfold aliasSelected
        rcases not_and_or.1 hc1 with h2 | h2
        · simp [h2]
        · simp [h2]
      rw [if_neg (by rw [hsel]; exact Bool.false_ne_true)]
      exact ih evs h

/-- On a full optimization that completes, the aliased node names are the
activation-pass names followed by the batch-normalization-pass names. -/
theorem inPlaceOptimize_names (g : NetworkGraph)
    (evs : List (String × String × Nat))
    (h : inPlaceOptimize g = Except.ok evs) :
    evs.map (fun e => e.1) =
      (g.Sorted.filter (aliasSelected g activation_type_tag)).map
        (fun nd => (getLayer g nd.layerRef).name) ++
      (g.Sorted.filter (aliasSelected g batch_normalization_type_tag)).map
        (fun nd => (getLayer g nd.layerRef).name) := by
  unfold inPlaceOptimize inPlaceOptimizeAll in_place_layers at h
  dsimp only at h
  cases h1 : inPlaceOptimizeType g activation_type_tag g.Sorted with
  | error e => rw [h1] at h; exact absurd h (by simp)
  | ok evs1 =>
    rw [h1] at h
    dsimp only at h
    unfold inPlaceOptimizeAll at h
    cases h2 : inPlaceOptimizeType g batch_normalization_type_tag g.Sorted with
    | error e => rw [h2] at h; exact absurd h (by simp)
    | ok evs2 =>
      rw [h2] at h
      dsimp only at h
      cases h
      rw [List.map_append, List.append_nil, inPlaceOptimizeType_names g _ _ _ h1,
        inPlaceOptimizeType_names g _ _ _ h2]

/-- All node handles a build exposes: the sorted order plus the adjacency
head nodes. -/
def allNodes (g : NetworkGraph) : List LayerNode :=
  g.Sorted ++ g.adj.filterMap List.head?

/-- A successful name lookup returns one of the adjacency head nodes. -/
theorem getLayerNodeByName_mem (g : NetworkGraph) (nm : String) (pnd : LayerNode)
    (h : getLayerNodeByName g nm = some pnd) :
    pnd ∈ g.adj.filterMap List.head? := by
  unfold getLayerNodeByName at h
  suffices haux : ∀ ls : List (List LayerNode),
      (ls.findSome? (fun l => match l.head? with
        | some nd => if istrequal (getLayer g nd.layerRef).name nm then some nd else none
        | none => none)) = some pnd → pnd ∈ ls.filterMap List.head? from haux g.adj h
  intro ls
  induction ls with
  | nil => intro hh; exact absurd hh (by simp)
  | cons l rest ih =>
    intro hh
    rw [List.findSome?_cons] at hh
    cases hl : l.head? with
    | none =>
      rw [hl] at hh
      dsimp only at hh
      rw [List.filterMap_cons, hl]
      exact ih hh
    | some nd =>
      rw [hl] at hh
      dsimp only at hh
      rw [List.filterMap_cons, hl]
      by_cases hi : istrequal (getLayer g nd.layerRef).name nm
      · rw [if_pos hi] at hh
        cases hh
        exact List.mem_cons_self _ _
      · rw [if_neg hi] at hh
        exact List.mem_cons_of_mem _ (ih hh)

/-- Claim C6: (1) an allow-listed node is not aliased when its predecessor
is the external-input node or was itself aliased (so no two consecutive
nodes are ever both aliased in place); (2) in a chain
`conv2d → batch_normalization → activation`, exactly one of the
batch-normalization and activation nodes — the batch-normalization one — is
aliased to its predecessor. Node names are assumed unique (each name denotes
one layer), which the realizer is designed to guarantee. -/
theorem claim_C6_aliasing_exclusion (g : NetworkGraph)
    (evs : List (String × String × Nat))
    (hok : inPlaceOptimize g = Except.ok evs)
    (huniq : ∀ nd1 ∈ allNodes g, ∀ nd2 ∈ allNodes g,
      (getLayer g nd1.layerRef).name = (getLayer g nd2.layerRef).name →
      getLayer g nd1.layerRef = getLayer g nd2.layerRef) :
    (∀ nd ∈ g.Sorted, ∀ pnd,
      (getLayer g nd.layerRef).ltype ∈ in_place_layers →
      getLayerNodeByName g ((getLayer g nd.layerRef).input_layers.headD "") = some pnd →
      ((getLayer g pnd.layerRef).ltype = input_type_tag ∨
        (getLayer g pnd.layerRef).name ∈ evs.map (fun e => e.1)) →
      (getLayer g nd.layerRef).name ∉ evs.map (fun e => e.1)) ∧
    (∀ cnd bnd and2, bnd ∈ g.Sorted → and2 ∈ g.Sorted →
      (getLayer g bnd.layerRef).ltype = batch_normalization_type_tag →
      (getLayer g bnd.layerRef).activation ≠ ActivationType.ACT_SOFTMAX →
      (getLayer g and2.layerRef).ltype = activation_type_tag →
      getLayerNodeByName g ((getLayer g bnd.layerRef).input_layers.headD "") =
        some cnd →
      getLayerNodeByName g ((getLayer g and2.layerRef).input_layers.headD "") =
        some bnd →
      (getLayer g cnd.layerRef).ltype = "conv2d" →
      ((getLayer g bnd.layerRef).name ∈ evs.map (fun e => e.1) ∧
       (getLayer g and2.layerRef).name ∉ evs.map (fun e => e.1))) := by
  have hnames := inPlaceOptimize_names g evs hok
  -- membership in the aliased names means: some sorted node with that name
  -- satisfies the selection condition for one of the two allow-listed types
  have hofMem : ∀ nm, nm ∈ evs.map (fun e => e.1) →
      ∃ nd2 t, (t = activation_type_tag ∨ t = batch_normalization_type_tag) ∧
        nd2 ∈ g.Sorted ∧ (getLayer g nd2.layerRef).name = nm ∧
        aliasSelected g t nd2 = true := by
    intro nm hm
    rw [hnames] at hm
    rcases List.mem_append.1 hm with hmm | hmm
    · obtain ⟨nd2, hnd2, hname⟩ := List.mem_map.1 hmm
      exact ⟨nd2, activation_type_tag, Or.inl rfl,
        (List.mem_filter.1 hnd2).1, hname, (List.mem_filter.1 hnd2).2⟩
    · obtain ⟨nd2, hnd2, hname⟩ := List.mem_map.1 hmm
      exact ⟨nd2, batch_normalization_type_tag, Or.inr rfl,
        (List.mem_filter.1 hnd2).1, hname, (List.mem_filter.1 hnd2).2⟩
  have hPart1 : ∀ nd ∈ g.Sorted, ∀ pnd,
      (getLayer g nd.layerRef).ltype ∈ in_place_layers →
      getLayerNodeByName g ((getLayer g nd.layerRef).input_layers.headD "") = some pnd →
      ((getLayer g pnd.layerRef).ltype = input_type_tag ∨
        (getLayer g pnd.layerRef).name ∈ evs.map (fun e => e.1)) →
      (getLayer g nd.layerRef).name ∉ evs.map (fun e => e.1) := by
    intro nd hnd pnd _ hlk hskip hm
    obtain ⟨nd2, t, _, hnd2S, hname, hsel⟩ := hofMem _ hm
    have hL : getLayer g nd2.layerRef = getLayer g nd.layerRef :=
      huniq nd2 (List.mem_append_left _ hnd2S) nd (List.mem_append_left _ hnd)
        hname
    unfold aliasSelected at hsel
    rw [hL] at hsel
    rw [hlk] at hsel
    simp only [Bool.and_eq_true, decide_eq_true_eq] at hsel
    rcases hskip with hin | hin
    · exact hsel.2.1 hin
    · obtain ⟨nd3, t3, ht3, hnd3S, hname3, hsel3⟩ := hofMem _ hin
      have hpmem : pnd ∈ allNodes g :=
        List.mem_append_right _ (getLayerNodeByName_mem g _ pnd hlk)
      have hL3 : getLayer g nd3.layerRef = getLayer g pnd.layerRef :=
        huniq nd3 (List.mem_append_left _ hnd3S) pnd hpmem hname3
      unfold aliasSelected at hsel3
      rw [hL3] at hsel3
      simp only [Bool.and_eq_true, decide_eq_true_eq] at hsel3
      have ht3mem : (getLayer g pnd.layerRef).ltype ∈ in_place_layers := by
        rcases ht3 with h3 | h3 <;> rw [hsel3.1.1, h3]
        · exact List.mem_cons_self _ _
        · exact List.mem_cons_of_mem _ (List.mem_cons_self _ _)
      exact hsel.2.2 ht3mem
  refine ⟨hPart1, ?_⟩
  intro cnd bnd and2 hbndS hand2S hbnty hbnact handty hlkb hlka hcty
  constructor
  · have hselb : aliasSelected g batch_normalization_type_tag bnd = true := by
      unfold aliasSelected
      rw [hlkb]
      simp only [Bool.and_eq_true, decide_eq_true_eq]
      refine ⟨⟨hbnty, hbnact⟩, ?_, ?_⟩
      · rw [hcty]; decide
      · rw [hcty]; decide
    rw [hnames]
    refine List.mem_append_right _ ?_
    exact List.mem_map.2 ⟨bnd, List.mem_filter.2 ⟨hbndS, hselb⟩, rfl⟩
  · intro hm
    obtain ⟨nd2, t, ht, hnd2S, hname, hsel⟩ := hofMem _ hm
    have hL : getLayer g nd2.layerRef = getLayer g and2.layerRef :=
      huniq nd2 (List.mem_append_left _ hnd2S) and2
        (List.mem_append_left _ hand2S) hname
    unfold aliasSelected at hsel
    rw [hL] at hsel
    rw [hlka] at hsel
    simp only [Bool.and_eq_true, decide_eq_true_eq] at hsel
    have hbmem : (getLayer g bnd.layerRef).ltype ∈ in_place_layers := by
      rw [hbnty]
      exact List.mem_cons_of_mem _ (List.mem_cons_self _ _)
    exact hsel.2.2 hbmem

/-- Concrete input for the C6 witness: `conv2d → batch_normalization →
activation` already built and sorted. -/
def c6Graph : NetworkGraph :=
  { store := [{ name := "conv", ltype := "conv2d", output_layers := ["bn"] },
              { name := "bn", ltype := "batch_normalization",
                input_layers := ["conv"], output_layers := ["act"] },
              { name := "act", ltype := "activation",
                activation := ActivationType.ACT_RELU,
                input_layers := ["bn"], output_layers := ["__exit__"] }],
    adj := [[⟨0, 0⟩], [⟨1, 1⟩], [⟨2, 2⟩]],
    num_node := 3,
    Sorted := [⟨0, 0⟩, ⟨1, 1⟩, ⟨2, 2⟩] }

theorem claim_C6_witness :
    inPlaceOptimize c6Graph = Except.ok [("bn", "conv", 0)] ∧
    ((getLayer c6Graph 1).name ∈ [("bn", "conv", 0)].map
        (fun (e : String × String × Nat) => e.1) ∧
     (getLayer c6Graph 2).name ∉ [("bn", "conv", 0)].map
        (fun (e : String × String × Nat) => e.1)) := by
  refine ⟨by decide, ?_⟩
  have h := claim_C6_aliasing_exclusion c6Graph [("bn", "conv", 0)]
    (by decide) (by decide)
  exact h.2 ⟨0, 0⟩ ⟨1, 1⟩ ⟨2, 2⟩ (by decide) (by decide) (by decide) (by decide)
    (by decide) (by decide) (by decide) (by decide)

/-! ### Claim C2 — correctness of the topological sort -/

/-- Index sequence of a node list. -/
def idxList (l : List LayerNode) : List Nat := l.map LayerNode.index

/-- The structural edge relation recorded by the edge resolver (`setEdge` /
`addEdge`): the tail entries of each adjacency slot point from the slot's
node to its consumers; the head entry is the node itself, not an edge. -/
def edgeRel (adjL : List (List LayerNode)) (u v : Nat) : Prop :=
  ∃ nd ∈ (adjL.getD u []).tail, nd.index = v

/-- Non-empty paths along a relation. -/
inductive EPath (r : Nat → Nat → Prop) : Nat → Nat → Prop where
  | single : ∀ {u v}, r u v → EPath r u v
  | cons : ∀ {u w v}, r u w → EPath r w v → EPath r u v

/-- Acyclicity: no non-empty path from a node to itself. -/
def Acyclic (r : Nat → Nat → Prop) : Prop := ∀ u, ¬ EPath r u u

theorem EPath.snoc {r : Nat → Nat → Prop} {a b c : Nat}
    (h : EPath r a b) (h2 : r b c) : EPath r a c := by
  induction h with
  | single h1 => exact EPath.cons h1 (EPath.single h2)
  | cons h1 _ ih => exact EPath.cons h1 (ih h2)

theorem EPath.mono_lt {r : Nat → Nat → Prop} (f : Nat → Nat)
    (hf : ∀ u v, r u v → f u < f v) {a b : Nat} (h : EPath r a b) : f a < f b := by
  induction h with
  | single h1 => exact hf _ _ h1
  | cons h1 _ ih => exact Nat.lt_trans (hf _ _ h1) ih

/-- A rank function strictly increasing along edges certifies acyclicity. -/
theorem acyclic_of_rank (r : Nat → Nat → Prop) (f : Nat → Nat)
    (hf : ∀ u v, r u v → f u < f v) : Acyclic r := fun _ hp =>
  absurd (hp.mono_lt f hf) (Nat.lt_irrefl _)

/-- Number of not-yet-visited nodes. -/
def unvisCount (numNode : Nat) (visited : List Bool) : Nat :=
  (List.range numNode).countP (fun i => visGet visited i == false)

theorem beq_false_eq (b : Bool) : (b == false) = true ↔ b = false := by
  cases b <;> simp

theorem visGet_set_self (visited : List Bool) (i : Nat) (h : i < visited.length) :
    visGet (visited.set i true) i = true :=
  getD_set_self visited i true false h

theorem visGet_set_mono (visited : List Bool) (i w : Nat)
    (h : visGet visited w = true) : visGet (visited.set i true) w = true := by
  by_cases hiw : i = w
  · subst hiw
    by_cases hlt : i < visited.length
    · exact visGet_set_self visited i hlt
    · unfold visGet at h ⊢
      rw [List.set_eq_of_length_le (Nat.le_of_not_lt hlt)]
      exact h
  · unfold visGet
    rw [getD_set_ne visited i w true false hiw]
    exact h

theorem countP_lt_of_witness {α : Type} (p q : α → Bool) :
    ∀ (l : List α), (∀ a ∈ l, q a = true → p a = true) → ∀ x ∈ l,
      p x = true → q x = false → l.countP q < l.countP p := by
  intro l
  induction l with
  | nil => intro _ x hx; cases hx
  | cons a rest ih =>
    intro himp x hx hpx hqx
    rw [List.countP_cons, List.countP_cons]
    have hz : (if false = true then (1 : Nat) else 0) = 0 := rfl
    have ho : (if true = true then (1 : Nat) else 0) = 1 := rfl
    have hmono : rest.countP q ≤ rest.countP p :=
      List.countP_mono_left (fun b hb => himp b (List.mem_cons_of_mem a hb))
    rcases List.mem_cons.1 hx with rfl | hx2
    · rw [hpx, hqx, hz, ho]
      omega
    · have hrec := ih (fun b hb => himp b (List.mem_cons_of_mem a hb)) x hx2 hpx hqx
      by_cases hqa : q a = true
      · rw [hqa, himp a (List.mem_cons_self a rest) hqa, ho]
        omega
      · rw [Bool.not_eq_true] at hqa
        rw [hqa, hz]
        have : (if p a = true then (1 : Nat) else 0) = 0 ∨
            (if p a = true then (1 : Nat) else 0) = 1 := by
          by_cases hpa : p a = true <;> simp [hpa]
        omega

theorem unvisCount_set_lt (numNode : Nat) (visited : List Bool) (i : Nat)
    (hi : i < numNode) (hlen : visited.length = numNode)
    (hvis : visGet visited i = false) :
    unvisCount numNode (visited.set i true) < unvisCount numNode visited := by
  unfold unvisCount
  refine countP_lt_of_witness _ _ (List.range numNode) ?_ i (List.mem_range.2 hi) ?_ ?_
  · intro a _ hq
    show (visGet visited a == false) = true
    rw [beq_false_eq] at hq ⊢
    by_cases hia : i = a
    · subst hia
      rw [visGet_set_self visited i (by omega)] at hq
      exact absurd hq (by decide)
    · unfold visGet at hq
      rw [getD_set_ne visited i a true false hia] at hq
      exact hq
  · show (visGet visited i == false) = true
    rw [hvis]
    rfl
  · show (visGet (visited.set i true) i == false) = false
    rw [visGet_set_self visited i (by omega)]
    rfl

theorem unvisCount_mono (numNode : Nat) (v1 v2 : List Bool)
    (h : ∀ w, visGet v1 w = true → visGet v2 w = true) :
    unvisCount numNode v2 ≤ unvisCount numNode v1 := by
  unfold unvisCount
  apply List.countP_mono_left
  intro a _ ha
  show (visGet v1 a == false) = true
  rw [beq_false_eq] at ha ⊢
  cases hv : visGet v1 a with
  | false => rfl
  | true => exact absurd (h a hv) (by rw [ha]; decide)

theorem unvisCount_le (numNode : Nat) (visited : List Bool) :
    unvisCount numNode visited ≤ numNode := by
  rw [unvisCount]
  calc (List.range numNode).countP (fun i => visGet visited i == false)
      ≤ (List.range numNode).length := List.countP_le_length _
    _ = numNode := List.length_range numNode

theorem unvisCount_pos (numNode : Nat) (visited : List Bool) (i : Nat)
    (hi : i < numNode) (h : visGet visited i = false) :
    1 ≤ unvisCount numNode visited := by
  have hp : 0 < unvisCount numNode visited := by
    rw [unvisCount, List.countP_pos_iff]
    refine ⟨i, List.mem_range.2 hi, ?_⟩
    show (visGet visited i == false) = true
    rw [h]
    rfl
  omega

theorem unvisCount_zero_all (numNode : Nat) (visited : List Bool)
    (h : unvisCount numNode visited = 0) :
    ∀ i, i < numNode → visGet visited i = true := by
  intro i hi
  by_contra hne
  have hf : visGet visited i = false := by
    cases hv : visGet visited i
    · rfl
    · exact absurd hv hne
  have := unvisCount_pos numNode visited i hi hf
  omega

/-- The invariant the DFS maintains: `visited` is exactly the stack plus the
gray (in-progress) nodes; the stack is duplicate-free, has no backward
edges, and is closed under successors; gray nodes are not yet on the
stack. -/
structure DfsInv (adjL : List (List LayerNode)) (numNode : Nat)
    (visited : List Bool) (stack : List LayerNode) (gray : List Nat) : Prop where
  lenEq : visited.length = numNode
  vs : ∀ w, visGet visited w = true ↔ (w ∈ idxList stack ∨ w ∈ gray)
  nodup : (idxList stack).Nodup
  pw : (idxList stack).Pairwise (fun a b => ¬ edgeRel adjL b a)
  closed : ∀ u ∈ idxList stack, ∀ v, edgeRel adjL u v → v ∈ idxList stack
  disj : ∀ a ∈ gray, a ∉ idxList stack

/-- Well-formedness of a built graph's adjacency structure: one slot per
node, each slot headed by its own node, all indices in range. -/
structure SortWF (adjL : List (List LayerNode)) (numNode : Nat) : Prop where
  len : adjL.length = numNode
  heads : ∀ i, i < numNode → ((adjL.getD i []).head?.map LayerNode.index) = some i
  inRange : ∀ i, i < numNode → ∀ nd ∈ adjL.getD i [], nd.index < numNode

theorem SortWF.head_self {adjL : List (List LayerNode)} {numNode : Nat}
    (hwf : SortWF adjL numNode) (i : Nat) (hi : i < numNode) :
    ∃ nd, (adjL.getD i []).head? = some nd ∧ nd.index = i := by
  cases h : (adjL.getD i []).head? with
  | none =>
    have h2 := hwf.heads i hi
    rw [h] at h2
    exact absurd h2 (by simp)
  | some nd =>
    have h2 := hwf.heads i hi
    rw [h] at h2
    exact ⟨nd, rfl, by simpa using h2⟩

theorem mem_head_or_tail {l : List LayerNode} {hd nd : LayerNode}
    (hh : l.head? = some hd) (hm : nd ∈ l) : nd = hd ∨ nd ∈ l.tail := by
  cases l with
  | nil => cases hm
  | cons a t =>
    cases hh
    rcases List.mem_cons.1 hm with h | h
    · exact Or.inl h
    · exact Or.inr h

theorem findNodeFrom_self {adjL : List (List LayerNode)} {numNode : Nat}
    (hwf : SortWF adjL numNode) (ith : Nat) :
    ∀ is : List Nat, (∀ i ∈ is, i < numNode) → ith ∈ is →
      findNodeFrom adjL ith is = (adjL.getD ith []).head? := by
  intro is
  induction is with
  | nil => intro _ h; cases h
  | cons i rest ih =>
    intro hall hmem
    obtain ⟨nd, hnd, hidx⟩ := hwf.head_self i (hall i (List.mem_cons_self i rest))
    unfold findNodeFrom
    rw [hnd]
    dsimp only
    by_cases hii : nd.index = ith
    · rw [if_pos hii]
      have hie : i = ith := by omega
      rw [← hie, hnd]
    · rw [if_neg hii]
      refine ih (fun j hj => hall j (List.mem_cons_of_mem i hj)) ?_
      rcases List.mem_cons.1 hmem with h | h
      · exact absurd (by omega : nd.index = ith) hii
      · exact h

theorem getLayerNodeIdx?_self {adjL : List (List LayerNode)} {numNode : Nat}
    (hwf : SortWF adjL numNode) (ith : Nat) (hi : ith < numNode) :
    getLayerNodeIdx? adjL numNode ith = (adjL.getD ith []).head? :=
  findNodeFrom_self hwf ith (List.range numNode)
    (fun j hj => List.mem_range.1 hj) (List.mem_range.2 hi)

/-- Specification of `topologicalSortUtil` at a given fuel: entered on an
unvisited in-range node under the invariant with enough fuel, it succeeds,
pushing a fresh stack segment that contains the entry node, preserving the
invariant, and strictly shrinking the unvisited count. `gray` are the
recursion ancestors, each with a path to the entry node. -/
def UtilSpec (adjL : List (List LayerNode)) (numNode fuel : Nat) : Prop :=
  ∀ ith visited stack gray,
    DfsInv adjL numNode visited stack gray →
    ith < numNode →
    visGet visited ith = false →
    unvisCount numNode visited ≤ fuel →
    (∀ a ∈ gray, EPath (edgeRel adjL) a ith) →
    ∃ v2 newPart,
      topologicalSortUtil adjL numNode fuel ith visited stack =
        some (v2, newPart ++ stack) ∧
      DfsInv adjL numNode v2 (newPart ++ stack) gray ∧
      (∀ w, visGet visited w = true → visGet v2 w = true) ∧
      unvisCount numNode v2 < unvisCount numNode visited ∧
      (∀ w ∈ idxList newPart, visGet visited w = false) ∧
      ith ∈ idxList newPart

/-- Specification of the successor loop at a given fuel: each listed node is
either the current (gray) node or one of its direct successors; the loop
succeeds, leaves every listed node visited, and preserves the invariant. -/
def SuccsSpec (adjL : List (List LayerNode)) (numNode fuel : Nat) : Prop :=
  ∀ succs cur visited stack gray,
    DfsInv adjL numNode visited stack gray →
    cur ∈ gray →
    (∀ a ∈ gray, a = cur ∨ EPath (edgeRel adjL) a cur) →
    (∀ nd ∈ succs, nd.index < numNode ∧
      (nd.index = cur ∨ edgeRel adjL cur nd.index)) →
    unvisCount numNode visited ≤ fuel →
    ∃ v2 newPart,
      sortVisitSuccs (fun i v s => topologicalSortUtil adjL numNode fuel i v s)
        succs visited stack = some (v2, newPart ++ stack) ∧
      DfsInv adjL numNode v2 (newPart ++ stack) gray ∧
      (∀ w, visGet visited w = true → visGet v2 w = true) ∧
      unvisCount numNode v2 ≤ unvisCount numNode visited ∧
      (∀ w ∈ idxList newPart, visGet visited w = false) ∧
      (∀ nd ∈ succs, visGet v2 nd.index = true)

theorem sortVisitSuccs_cons
    (visit : Nat → List Bool → List LayerNode → Option (List Bool × List LayerNode))
    (nd : LayerNode) (rest : List LayerNode) (visited : List Bool)
    (stack : List LayerNode) :
    sortVisitSuccs visit (nd :: rest) visited stack =
      if visGet visited nd.index then sortVisitSuccs visit rest visited stack
      else
        match visit nd.index visited stack with
        | none => none
        | some (v2, s2) => sortVisitSuccs visit rest v2 s2 := rfl

theorem util_zero (adjL : List (List LayerNode)) (numNode : Nat) :
    UtilSpec adjL numNode 0 := by
  intro ith visited stack gray _ hlt hvis hfuel _
  exact absurd hfuel
    (by have := unvisCount_pos numNode visited ith hlt hvis; omega)

theorem succs_of_util (adjL : List (List LayerNode)) (numNode : Nat)
    (hacy : Acyclic (edgeRel adjL)) (fuel : Nat)
    (hU : UtilSpec adjL numNode fuel) : SuccsSpec adjL numNode fuel := by
  intro succs
  induction succs with
  | nil =>
    intro cur visited stack gray hinv _ _ _ _
    refine ⟨visited, [], rfl, hinv, fun _ h => h, Nat.le_refl _, ?_, ?_⟩
    · intro w hw; cases hw
    · intro nd hnd; cases hnd
  | cons nd rest ih =>
    intro cur visited stack gray hinv hcur hgray helem hfuel
    obtain ⟨hltn, hedge⟩ := helem nd (List.mem_cons_self nd rest)
    by_cases hv : visGet visited nd.index = true
    · obtain ⟨v2, newPart, hres, hinv2, hmono, hle, hfresh, hall⟩ :=
        ih cur visited stack gray hinv hcur hgray
          (fun x hx => helem x (List.mem_cons_of_mem nd hx)) hfuel
      refine ⟨v2, newPart, ?_, hinv2, hmono, hle, hfresh, ?_⟩
      · rw [sortVisitSuccs_cons, if_pos hv]
        exact hres
      · intro x hx
        rcases List.mem_cons.1 hx with rfl | hx2
        · exact hmono _ hv
        · exact hall x hx2
    · rw [Bool.not_eq_true] at hv
      have hedge2 : edgeRel adjL cur nd.index := by
        rcases hedge with he | he
        · exact absurd ((hinv.vs cur).2 (Or.inr hcur))
            (by rw [← he, hv]; decide)
        · exact he
      have hpaths : ∀ a ∈ gray, EPath (edgeRel adjL) a nd.index := by
        intro a ha
        rcases hgray a ha with rfl | hp
        · exact EPath.single hedge2
        · exact hp.snoc hedge2
      obtain ⟨v2, new1, hres1, hinv1, hmono1, hlt1, hfresh1, hidx1⟩ :=
        hU nd.index visited stack gray hinv hltn hv hfuel hpaths
      obtain ⟨v3, new2, hres2, hinv2, hmono2, hle2, hfresh2, hall2⟩ :=
        ih cur v2 (new1 ++ stack) gray hinv1 hcur hgray
          (fun x hx => helem x (List.mem_cons_of_mem nd hx)) (by omega)
      refine ⟨v3, new2 ++ new1, ?_, ?_, fun w h => hmono2 w (hmono1 w h),
        by omega, ?_, ?_⟩
      · rw [sortVisitSuccs_cons, if_neg (by rw [hv]; decide)]
        rw [hres1]
        dsimp only
        rw [hres2, List.append_assoc]
      · rw [List.append_assoc]
        exact hinv2
      · intro w hw
        simp only [idxList, List.map_append, List.mem_append] at hw
        rcases hw with h2 | h1
        · cases hvw : visGet visited w with
          | false => rfl
          | true =>
            exact absurd (hmono1 w hvw) (by rw [hfresh2 w h2]; decide)
        · exact hfresh1 w h1
      · intro x hx
        rcases List.mem_cons.1 hx with rfl | hx2
        · apply hmono2
          refine (hinv1.vs x.index).2 (Or.inl ?_)
          simp only [idxList, List.map_append, List.mem_append]
          exact Or.inl hidx1
        · exact hall2 x hx2

theorem util_succ (adjL : List (List LayerNode)) (numNode : Nat)
    (hwf : SortWF adjL numNode) (hacy : Acyclic (edgeRel adjL)) (f : Nat)
    (hS : SuccsSpec adjL numNode f) : UtilSpec adjL numNode (f + 1) := by
  intro ith visited stack gray hinv hltn hvis hfuel hpaths
  obtain ⟨hd, hhd, hhdidx⟩ := hwf.head_self ith hltn
  have hinv1 : DfsInv adjL numNode (visited.set ith true) stack (ith :: gray) := by
    refine ⟨?_, ?_, hinv.nodup, hinv.pw, hinv.closed, ?_⟩
    · rw [List.length_set]; exact hinv.lenEq
    · intro w
      constructor
      · intro hw
        by_cases hwi : w = ith
        · exact Or.inr (by rw [hwi]; exact List.mem_cons_self ith gray)
        · have hw2 : visGet visited w = true := by
            unfold visGet at hw ⊢
            rwa [getD_set_ne visited ith w true false
              (fun he => hwi he.symm)] at hw
          rcases (hinv.vs w).1 hw2 with h | h
          · exact Or.inl h
          · exact Or.inr (List.mem_cons_of_mem ith h)
      · intro hw
        rcases hw with h | h
        · exact visGet_set_mono visited ith w ((hinv.vs w).2 (Or.inl h))
        · rcases List.mem_cons.1 h with rfl | h2
          · exact visGet_set_self visited w (by rw [hinv.lenEq]; exact hltn)
          · exact visGet_set_mono visited ith w ((hinv.vs w).2 (Or.inr h2))
    · intro a ha
      rcases List.mem_cons.1 ha with rfl | h2
      · intro hmem
        exact absurd ((hinv.vs a).2 (Or.inl hmem)) (by rw [hvis]; decide)
      · exact hinv.disj a h2
  have helems : ∀ x ∈ adjL.getD ith [], x.index < numNode ∧
      (x.index = ith ∨ edgeRel adjL ith x.index) := by
    intro x hx
    refine ⟨hwf.inRange ith hltn x hx, ?_⟩
    rcases mem_head_or_tail hhd hx with rfl | ht
    · exact Or.inl hhdidx
    · exact Or.inr ⟨x, ht, rfl⟩
  have hfuel1 : unvisCount numNode (visited.set ith true) ≤ f := by
    have := unvisCount_set_lt numNode visited ith hltn hinv.lenEq hvis
    omega
  have hgray1 : ∀ a ∈ ith :: gray, a = ith ∨ EPath (edgeRel adjL) a ith := by
    intro a ha
    rcases List.mem_cons.1 ha with rfl | h2
    · exact Or.inl rfl
    · exact Or.inr (hpaths a h2)
  obtain ⟨v2, new1, hres, hinv2, hmono, hle, hfresh, hall⟩ :=
    hS (adjL.getD ith []) ith (visited.set ith true) stack (ith :: gray)
      hinv1 (List.mem_cons_self ith gray) hgray1 helems hfuel1
  have hgetIdx : getLayerNodeIdx? adjL numNode ith = some hd := by
    rw [getLayerNodeIdx?_self hwf ith hltn, hhd]
  have hnotin : hd.index ∉ idxList (new1 ++ stack) := by
    rw [hhdidx]
    exact hinv2.disj ith (List.mem_cons_self ith gray)
  refine ⟨v2, hd :: new1, ?_, ?_, ?_, ?_, ?_, ?_⟩
  · unfold topologicalSortUtil
    rw [hres]
    dsimp only
    rw [hgetIdx, List.cons_append]
  · refine ⟨hinv2.lenEq, ?_, ?_, ?_, ?_, ?_⟩
    · intro w
      have base := hinv2.vs w
      constructor
      · intro hw
        rcases base.1 hw with h | h
        · refine Or.inl ?_
          show w ∈ hd.index :: idxList (new1 ++ stack)
          exact List.mem_cons_of_mem _ h
        · rcases List.mem_cons.1 h with rfl | h2
          · refine Or.inl ?_
            show w ∈ hd.index :: idxList (new1 ++ stack)
            exact List.mem_cons.2 (Or.inl hhdidx.symm)
          · exact Or.inr h2
      · intro hw
        rcases hw with h | h
        · have h2 : w ∈ hd.index :: idxList (new1 ++ stack) := h
          rcases List.mem_cons.1 h2 with rfl | h3
          · exact base.2 (Or.inr (by rw [hhdidx]; exact List.mem_cons_self ith gray))
          · exact base.2 (Or.inl h3)
        · exact base.2 (Or.inr (List.mem_cons_of_mem ith h))
    · show (hd.index :: idxList (new1 ++ stack)).Nodup
      exact List.nodup_cons.2 ⟨hnotin, hinv2.nodup⟩
    · show (hd.index :: idxList (new1 ++ stack)).Pairwise
        (fun a b => ¬ edgeRel adjL b a)
      refine List.pairwise_cons.2 ⟨?_, hinv2.pw⟩
      intro b hb hedge
      exact hnotin (hinv2.closed b hb hd.index hedge)
    · intro u hu v hv
      show v ∈ hd.index :: idxList (new1 ++ stack)
      have hu2 : u ∈ hd.index :: idxList (new1 ++ stack) := hu
      rcases List.mem_cons.1 hu2 with rfl | h2
      · rw [hhdidx] at hv
        obtain ⟨x, hxt, hxi⟩ := hv
        have hx2 : x ∈ adjL.getD ith [] := List.mem_of_mem_tail hxt
        have hvx : visGet v2 x.index = true := hall x hx2
        rcases (hinv2.vs x.index).1 hvx with h | h
        · rw [hxi] at h
          exact List.mem_cons_of_mem _ h
        · exfalso
          rcases List.mem_cons.1 h with he | hg
          · have hvith : v = ith := by omega
            subst hvith
            exact hacy v (EPath.single ⟨x, hxt, hxi⟩)
          · have hedge3 : edgeRel adjL ith x.index := ⟨x, hxt, rfl⟩
            exact hacy ith (EPath.cons hedge3 (hpaths x.index hg))
      · exact List.mem_cons_of_mem _ (hinv2.closed u h2 v hv)
    · intro a ha
      show a ∉ hd.index :: idxList (new1 ++ stack)
      intro hmem2
      rcases List.mem_cons.1 hmem2 with he | h2
      · have hvt : visGet visited a = true := (hinv.vs a).2 (Or.inr ha)
        rw [he, hhdidx, hvis] at hvt
        exact absurd hvt (by decide)
      · exact hinv2.disj a (List.mem_cons_of_mem ith ha) h2
  · intro w hw
    exact hmono w (visGet_set_mono visited ith w hw)
  · have h1 := unvisCount_set_lt numNode visited ith hltn hinv.lenEq hvis
    omega
  · intro w hw
    have hw2 : w ∈ hd.index :: idxList new1 := hw
    rcases List.mem_cons.1 hw2 with rfl | h2
    · rw [hhdidx]; exact hvis
    · have h3 := hfresh w h2
      cases hvw : visGet visited w with
      | false => rfl
      | true =>
        exact absurd (visGet_set_mono visited ith w hvw) (by rw [h3]; decide)
  · show ith ∈ hd.index :: idxList new1
    exact List.mem_cons.2 (Or.inl hhdidx.symm)

theorem dfs_spec (adjL : List (List LayerNode)) (numNode : Nat)
    (hwf : SortWF adjL numNode) (hacy : Acyclic (edgeRel adjL)) :
    ∀ fuel, UtilSpec adjL numNode fuel := by
  intro fuel
  induction fuel with
  | zero => exact util_zero adjL numNode
  | succ f ih =>
    exact util_succ adjL numNode hwf hacy f (succs_of_util adjL numNode hacy f ih)

theorem sortLoop_cons (adjL : List (List LayerNode)) (numNode i : Nat)
    (rest : List Nat) (visited : List Bool) (stack : List LayerNode) :
    sortLoop adjL numNode (i :: rest) visited stack =
      if visGet visited i then sortLoop adjL numNode rest visited stack
      else
        match topologicalSortUtil adjL numNode numNode i visited stack with
        | none => none
        | some (v2, s2) => sortLoop adjL numNode rest v2 s2 := rfl

theorem sortLoop_spec (adjL : List (List LayerNode)) (numNode : Nat)
    (hwf : SortWF adjL numNode) (hacy : Acyclic (edgeRel adjL)) :
    ∀ (is : List Nat) (visited : List Bool) (stack : List LayerNode),
      (∀ i ∈ is, i < numNode) →
      DfsInv adjL numNode visited stack [] →
      ∃ v2 newPart,
        sortLoop adjL numNode is visited stack = some (v2, newPart ++ stack) ∧
        DfsInv adjL numNode v2 (newPart ++ stack) [] ∧
        (∀ w, visGet visited w = true → visGet v2 w = true) ∧
        (∀ i ∈ is, visGet v2 i = true) := by
  intro is
  induction is with
  | nil =>
    intro visited stack _ hinv
    exact ⟨visited, [], rfl, hinv, fun _ h => h,
      fun i hi => absurd hi (List.not_mem_nil i)⟩
  | cons i rest ih =>
    intro visited stack hall hinv
    by_cases hv : visGet visited i = true
    · obtain ⟨v2, newPart, hres, hinv2, hmono, hvisall⟩ :=
        ih visited stack (fun j hj => hall j (List.mem_cons_of_mem i hj)) hinv
      refine ⟨v2, newPart, ?_, hinv2, hmono, ?_⟩
      · rw [sortLoop_cons, if_pos hv]
        exact hres
      · intro j hj
        rcases List.mem_cons.1 hj with rfl | hj2
        · exact hmono j hv
        · exact hvisall j hj2
    · rw [Bool.not_eq_true] at hv
      have hi : i < numNode := hall i (List.mem_cons_self i rest)
      obtain ⟨v2, new1, hres1, hinv1, hmono1, _, _, hmem1⟩ :=
        dfs_spec adjL numNode hwf hacy numNode i visited stack [] hinv hi hv
          (unvisCount_le numNode visited)
          (fun a ha => absurd ha (List.not_mem_nil a))
      obtain ⟨v3, new2, hres2, hinv2, hmono2, hvisall⟩ :=
        ih v2 (new1 ++ stack) (fun j hj => hall j (List.mem_cons_of_mem i hj)) hinv1
      refine ⟨v3, new2 ++ new1, ?_, ?_, fun w h => hmono2 w (hmono1 w h), ?_⟩
      · rw [sortLoop_cons, if_neg (by rw [hv]; decide)]
        rw [hres1]
        dsimp only
        rw [hres2, List.append_assoc]
      · rw [List.append_assoc]
        exact hinv2
      · intro j hj
        rcases List.mem_cons.1 hj with rfl | hj2
        · apply hmono2
          refine (hinv1.vs j).2 (Or.inl ?_)
          simp only [idxList, List.map_append, List.mem_append]
          exact Or.inl hmem1
        · exact hvisall j hj2

theorem visGet_replicate (n i : Nat) :
    visGet (List.replicate n false) i = false := by
  unfold visGet
  rw [List.getD_eq_getElem?_getD, List.getElem?_replicate]
  by_cases h : i < n
  · rw [if_pos h]
    rfl
  · rw [if_neg h]
    rfl

theorem dfsInv_init (adjL : List (List LayerNode)) (numNode : Nat) :
    DfsInv adjL numNode (List.replicate numNode false) [] [] := by
  refine ⟨List.length_replicate numNode false, ?_, List.nodup_nil,
    List.Pairwise.nil, ?_, ?_⟩
  · intro w
    constructor
    · intro h
      rw [visGet_replicate] at h
      exact absurd h (by decide)
    · intro h
      rcases h with h | h
      · exact absurd h (List.not_mem_nil w)
      · exact absurd h (List.not_mem_nil w)
  · intro u hu
    exact absurd hu (List.not_mem_nil u)
  · intro a ha
    exact absurd ha (List.not_mem_nil a)

theorem indexOf_lt_of_pairwise (L : List Nat) (R : Nat → Nat → Prop)
    (hpw : L.Pairwise R) (u v : Nat) (hu : u ∈ L) (hv : v ∈ L)
    (hne : u ≠ v) (hnR : ¬ R v u) : L.indexOf u < L.indexOf v := by
  have hiu : L.indexOf u < L.length := List.indexOf_lt_length.2 hu
  have hiv : L.indexOf v < L.length := List.indexOf_lt_length.2 hv
  have hgu : L[L.indexOf u] = u := List.getElem_indexOf hiu
  have hgv : L[L.indexOf v] = v := List.getElem_indexOf hiv
  rcases Nat.lt_trichotomy (L.indexOf u) (L.indexOf v) with h | h | h
  · exact h
  · exfalso
    apply hne
    have h3 : L[L.indexOf u]? = L[L.indexOf v]? := by rw [h]
    rw [List.getElem?_eq_getElem hiu, List.getElem?_eq_getElem hiv] at h3
    rw [hgu, hgv] at h3
    exact Option.some.inj h3
  · refine absurd ?_ hnR
    have h2 := List.pairwise_iff_getElem.1 hpw (L.indexOf v) (L.indexOf u) hiv hiu h
    rwa [hgu, hgv] at h2

/-- C2: for every build whose resolved adjacency relation is acyclic, the
topological sort succeeds and produces an order in which, for every
structural edge (u → v) recorded by the edge resolver, u's position in the
sorted sequence is strictly less than v's position. The well-formedness
hypotheses state how `setEdge`/`setGraphNode` lay out the adjacency list:
one slot per node, each slot headed by its own node, all indices in
range. -/
theorem claim_C2_topological_validity (g : NetworkGraph)
    (hlen : g.adj.length = g.num_node)
    (hheads : ∀ i, i < g.num_node →
      ((g.adj.getD i []).head?.map LayerNode.index) = some i)
    (hrange : ∀ i, i < g.num_node →
      ∀ nd ∈ g.adj.getD i [], nd.index < g.num_node)
    (hsorted : g.Sorted = [])
    (hacy : Acyclic (edgeRel g.adj)) :
    ∃ g2, topologicalSort g = some g2 ∧
      ∀ u v, edgeRel g.adj u v →
        u ∈ idxList g2.Sorted ∧ v ∈ idxList g2.Sorted ∧
        (idxList g2.Sorted).indexOf u < (idxList g2.Sorted).indexOf v := by
  have hwf : SortWF g.adj g.num_node := ⟨hlen, hheads, hrange⟩
  obtain ⟨v2, newPart, hres, hinvF, _, hallvis⟩ :=
    sortLoop_spec g.adj g.num_node hwf hacy (List.range g.num_node)
      (List.replicate g.num_node false) []
      (fun i hi => List.mem_range.1 hi) (dfsInv_init g.adj g.num_node)
  rw [List.append_nil] at hres hinvF
  refine ⟨countNonTrainableLayersAtBegin { g with Sorted := g.Sorted ++ newPart },
    ?_, ?_⟩
  · unfold topologicalSort
    rw [hres]
  · have hg2 : (countNonTrainableLayersAtBegin
        { g with Sorted := g.Sorted ++ newPart }).Sorted = newPart := by
      rw [countNonTrainableLayersAtBegin_Sorted]
      dsimp only
      rw [hsorted, List.nil_append]
    rw [hg2]
    intro u v he
    have hu : u < g.num_node := by
      by_contra hnot
      obtain ⟨x, hxt, _⟩ := he
      rw [getD_of_length_le g.adj u [] (by omega)] at hxt
      exact absurd hxt (List.not_mem_nil x)
    have huvis : visGet v2 u = true := hallvis u (List.mem_range.2 hu)
    have humem : u ∈ idxList newPart := by
      rcases (hinvF.vs u).1 huvis with h | h
      · exact h
      · exact absurd h (List.not_mem_nil u)
    have hvmem : v ∈ idxList newPart := hinvF.closed u humem v he
    have hne : u ≠ v := by
      intro heq
      subst heq
      exact hacy u (EPath.single he)
    exact ⟨humem, hvmem,
      indexOf_lt_of_pairwise (idxList newPart) (fun a b => ¬ edgeRel g.adj b a)
        hinvF.pw u v humem hvmem hne (fun hn => hn he)⟩

def c2Graph : NetworkGraph :=
  { store := [{ name := "a", ltype := "input" }, { name := "b", ltype := "dense" }],
    adj := [[⟨0, 0⟩, ⟨1, 1⟩], [⟨1, 1⟩]],
    num_node := 2,
    Sorted := [] }

theorem c2Graph_acyclic : Acyclic (edgeRel c2Graph.adj) := by
  apply acyclic_of_rank _ (fun u => u)
  intro u v he
  obtain ⟨x, hxt, hxi⟩ := he
  rcases u with _ | u
  · have h0 : (c2Graph.adj.getD 0 []).tail = [⟨1, 1⟩] := rfl
    rw [h0] at hxt
    have hx : x = ⟨1, 1⟩ := by simpa using hxt
    rw [← hxi, hx]
    decide
  · rcases u with _ | u
    · have h1 : (c2Graph.adj.getD 1 []).tail = [] := rfl
      rw [h1] at hxt
      exact absurd hxt (List.not_mem_nil x)
    · have h2 : c2Graph.adj.getD (u + 1 + 1) [] = [] :=
        getD_of_length_le _ _ _ (by have : c2Graph.adj.length = 2 := rfl; omega)
      rw [h2] at hxt
      exact absurd hxt (List.not_mem_nil x)

theorem claim_C2_witness :
    (c2Graph.adj.length = c2Graph.num_node ∧
     (∀ i, i < c2Graph.num_node →
       ((c2Graph.adj.getD i []).head?.map LayerNode.index) = some i) ∧
     (∀ i, i < c2Graph.num_node →
       ∀ nd ∈ c2Graph.adj.getD i [], nd.index < c2Graph.num_node) ∧
     c2Graph.Sorted = []) ∧
    (∃ g2, topologicalSort c2Graph = some g2 ∧
      ∀ u v, edgeRel c2Graph.adj u v →
        u ∈ idxList g2.Sorted ∧ v ∈ idxList g2.Sorted ∧
        (idxList g2.Sorted).indexOf u < (idxList g2.Sorted).indexOf v) := by
  refine ⟨⟨by decide, by decide, by decide, by decide⟩, ?_⟩
  exact claim_C2_topological_validity c2Graph (by decide) (by decide) (by decide)
    (by decide) c2Graph_acyclic

end NNTrainer
